import Mathlib

/-!
Verification development for the search/replace engine of `greps.py`
(a find/change dialog for Scribus documents).

The Python source is shallowly embedded below:

* Python strings are modelled as `List Char`; Python `int` cursor offsets as
  `Int` (they are compared against `0` in the source).
* The Python `re` module is an external collaborator.  It is modelled for the
  fragment the dialog exercises: patterns consisting of literal characters and
  single-character star repetitions (`PyRegex`), with CPython's leftmost/greedy
  search (`reSearch`), non-overlapping left-to-right iteration (`reFinditer`,
  including CPython's advance-by-one after an empty match), global substitution
  (`reSubCount`) and replacement-template expansion for patterns without
  capture groups (`pyExpand`).  `re.compile` outcomes are passed to each
  handler as an `Option PyRegex` argument (`none` models `re.error`).
* The Scribus text store and the persisted `queries.json` are modelled by a
  `World` record; `unicodedata.lookup` is a function parameter `lk`.
* Every definition is structurally recursive (fuel parameters stand in for
  well-founded measures) so that concrete runs evaluate inside the kernel.
-/

/-- `headMatches pat s` is true when `pat` occurs at the very beginning of
`s` (the primitive used to model Python `str.replace` scanning). -/
def headMatches : List Char → List Char → Bool
  | [], _ => true
  | _ :: _, [] => false
  | p :: ps, x :: xs => p = x && headMatches ps xs

/-- Association-list read; models `dict.get` returning `None` when absent. -/
def getKey {α : Type} [DecidableEq α] {β : Type} : List (α × β) → α → Option β
  | [], _ => none
  | (k, v) :: rest, key => if k = key then some v else getKey rest key

/-- Association-list write; models `dict[key] = value` (overwrite in place,
append when the key is new, as CPython dicts do). -/
def setKey {α : Type} [DecidableEq α] {β : Type} : List (α × β) → α → β → List (α × β)
  | [], key, v => [(key, v)]
  | (k, v0) :: rest, key, v => if k = key then (key, v) :: rest else (k, v0) :: setKey rest key v

/-- `splice s a b ins` replaces the slice `[a, b)` of `s` by `ins`; models
Python `s[:a] + ins + s[b:]`. -/
def splice (s : List Char) (a b : Nat) (ins : List Char) : List Char :=
  s.take a ++ ins ++ s.drop b

/- ---------------------------------------------------------------------------
Model of the compiled-pattern collaborator (`re` module, no capture groups).
--------------------------------------------------------------------------- -/

/-- One atom of a compiled pattern: a literal character or a greedy
single-character repetition `c*`. -/
inductive RAtom : Type
  | lit (c : Char)
  | star (c : Char)
deriving DecidableEq, Repr

/-- A compiled pattern (`re.compile` result) for the fragment the dialog
exercises: a sequence of atoms, no capture groups. -/
structure PyRegex : Type where
  atoms : List RAtom
deriving DecidableEq, Repr

/-- Compilation of a pattern of plain literal characters. -/
def litRegex (s : List Char) : PyRegex := ⟨s.map RAtom.lit⟩

/-- Length of the run of copies of `c` at the head of `s`. -/
def maxRun (c : Char) : List Char → Nat
  | [] => 0
  | x :: xs => if x = c then maxRun c xs + 1 else 0

/-- `matchAtoms atoms s = some n` when the pattern matches a prefix of `s` of
length `n` under CPython's greedy backtracking (a star consumes as much as
possible subject to the rest of the pattern matching). -/
def matchAtoms : List RAtom → List Char → Option Nat
  | [], _ => some 0
  | .lit c :: rest, s =>
    match s with
    | [] => none
    | x :: xs => if x = c then (matchAtoms rest xs).map (fun n => n + 1) else none
  | .star c :: rest, s =>
    ((List.range (maxRun c s + 1)).reverse.filterMap
      (fun k => (matchAtoms rest (s.drop k)).map (fun n => k + n))).head?

/-- Fueled scan for `Pattern.search(s, pos)`: the leftmost match starting at
or after `pos`; no match when `pos` is beyond the end of `s`. -/
def reSearchF (rg : PyRegex) (s : List Char) : Nat → Nat → Option (Nat × Nat)
  | 0, _ => none
  | f + 1, p =>
    if p > s.length then none
    else
      match matchAtoms rg.atoms (s.drop p) with
      | some n => some (p, p + n)
      | none => reSearchF rg s f (p + 1)

/-- `Pattern.search(s, pos)` returning the span `(start, end)`. -/
def reSearch (rg : PyRegex) (s : List Char) (pos : Nat) : Option (Nat × Nat) :=
  reSearchF rg s (s.length + 1) pos

/-- Fueled scan for `Pattern.finditer`: successive non-overlapping matches;
after an empty match the scan position advances by one (CPython ≥ 3.7). -/
def finditerF (rg : PyRegex) (s : List Char) : Nat → Nat → List (Nat × Nat)
  | 0, _ => []
  | f + 1, p =>
    match reSearch rg s p with
    | none => []
    | some (st, en) => (st, en) :: finditerF rg s f (if en = st then en + 1 else en)

/-- `Pattern.finditer(s)`: all match spans, left to right. -/
def reFinditer (rg : PyRegex) (s : List Char) : List (Nat × Nat) :=
  finditerF rg s (s.length + 2) 0

/-- Escape table of CPython's `sre_parse.parse_template`. -/
def escMapT (c : Char) : Option Char :=
  if c = 'n' then some '\n'
  else if c = 'r' then some '\r'
  else if c = 't' then some '\t'
  else if c = 'v' then some '\x0b'
  else if c = 'f' then some '\x0c'
  else if c = 'a' then some '\x07'
  else if c = 'b' then some '\x08'
  else if c = '\\' then some '\\'
  else none

def isDigitCh (c : Char) : Bool := '0' ≤ c && c ≤ '9'

def isOctDigit (c : Char) : Bool := '0' ≤ c && c ≤ '7'

def isAsciiLetterCh (c : Char) : Bool :=
  ('a' ≤ c && c ≤ 'z') || ('A' ≤ c && c ≤ 'Z')

def digitsToNat (ds : List Char) : Nat :=
  ds.foldl (fun a c => a * 10 + (c.toNat - 48)) 0

/-- Fueled replacement-template scanner: `Match.expand(template)` for a match
of a pattern with no capture groups whose whole text (group 0) is `whole`.
`none` models the exceptions CPython raises (bad escape, invalid group
reference, unknown group name, trailing backslash). -/
def pyExpandF (whole : List Char) : Nat → List Char → Option (List Char)
  | 0, s => some s
  | _ + 1, [] => some []
  | f + 1, c :: rest =>
    if c = '\\' then
      match rest with
      | [] => none
      | d :: rest2 =>
        if d = 'g' then
          match rest2 with
          | '<' :: rest3 =>
            let name := rest3.takeWhile (fun ch => ch ≠ '>')
            if name.length < rest3.length ∧ name ≠ [] then
              if name.all isDigitCh then
                if digitsToNat name = 0 then
                  (pyExpandF whole f (rest3.drop (name.length + 1))).map (fun t => whole ++ t)
                else none
              else none
            else none
          | _ => none
        else if d = '0' then
          let ds := (rest2.takeWhile isOctDigit).take 2
          let v := ds.foldl (fun a ch => a * 8 + (ch.toNat - 48)) 0
          (pyExpandF whole f (rest2.drop ds.length)).map (fun t => Char.ofNat v :: t)
        else if isDigitCh d then none
        else
          match escMapT d with
          | some e => (pyExpandF whole f rest2).map (fun t => e :: t)
          | none =>
            if isAsciiLetterCh d then none
            else (pyExpandF whole f rest2).map (fun t => '\\' :: d :: t)
    else (pyExpandF whole f rest).map (fun t => c :: t)

/-- `Match.expand(template)` (no capture groups, group 0 = `whole`). -/
def pyExpand (template whole : List Char) : Option (List Char) :=
  pyExpandF whole (template.length + 1) template

/-- Rebuild the subject string from its match spans, expanding `template` at
each span; the splicing step of `Pattern.sub`. -/
def subSplice (template s : List Char) : List (Nat × Nat) → Nat → Option (List Char)
  | [], prev => some (s.drop prev)
  | (st, en) :: rest, prev =>
    match pyExpand template ((s.drop st).take (en - st)) with
    | none => none
    | some e =>
      (subSplice template s rest en).map
        (fun tl => (s.drop prev).take (st - prev) ++ e ++ tl)

/-- `Pattern.sub(repl, s)` where `repl` expands `template` against each match
(the `on_change_all` callback): the substituted text and the number of
substitutions.  `none` models an exception escaping from the callback. -/
def reSubCount (rg : PyRegex) (template s : List Char) : Option (List Char × Nat) :=
  let spans := reFinditer rg s
  (subSplice template s spans 0).map (fun out => (out, spans.length))

/- ---------------------------------------------------------------------------
TagNormalizer: `normalize_input(text, is_pattern)`.
--------------------------------------------------------------------------- -/

/-- Fueled model of Python `str.replace` (all non-overlapping occurrences,
left to right).  The fuel is an upper bound on the scan length; the wrapper
`strReplace` supplies `s.length + 1`, which is always sufficient. -/
def strReplaceF : Nat → List Char → List Char → List Char → List Char
  | 0, s, _, _ => s
  | _ + 1, [], pat, rep => if pat = [] then rep else []
  | f + 1, x :: xs, pat, rep =>
    if pat = [] then rep ++ x :: strReplaceF f xs pat rep
    else if headMatches pat (x :: xs) then rep ++ strReplaceF f ((x :: xs).drop pat.length) pat rep
    else x :: strReplaceF f xs pat rep

/-- Python `s.replace(pat, rep)`. -/
def strReplace (s pat rep : List Char) : List Char :=
  strReplaceF (s.length + 1) s pat rep

/-- The symbolic tag table of `normalize_input` (step 1), in source order. -/
def TAGS : List (List Char × List Char) :=
  [ ("<SPACE>".toList, "\u0020".toList),
    ("<TAB>".toList, "\u0009".toList),
    ("<NBSP>".toList, "\u00a0".toList),
    ("<NARROW_NBSP>".toList, "\u202f".toList),
    ("<ENSPACE>".toList, "\u2002".toList),
    ("<EMSPACE>".toList, "\u2003".toList),
    ("<THREE_PER_EM_SPACE>".toList, "\u2004".toList),
    ("<FOUR_PER_EM_SPACE>".toList, "\u2005".toList),
    ("<SIX_PER_EM_SPACE>".toList, "\u2006".toList),
    ("<FIGURESPACE>".toList, "\u2007".toList),
    ("<PUNCTSPACE>".toList, "\u2008".toList),
    ("<THINSPACE>".toList, "\u2009".toList),
    ("<HAIRSPACE>".toList, "\u200a".toList),
    ("<ZEROSPACE>".toList, "\u200b".toList),
    ("<ENDPARA>".toList, "\u000d".toList),
    ("<LINEBREAK>".toList, "\u2028".toList),
    ("<COLUMNBREAK>".toList, "\u001a".toList),
    ("<FRAMEBREAK>".toList, "\u001b".toList),
    ("<EMDASH>".toList, "\u2014".toList),
    ("<ENDASH>".toList, "\u2013".toList),
    ("<NON_BREAKING_HYPHEN>".toList, "\u2011".toList),
    ("<BULLET>".toList, "\u2022".toList),
    ("<BACKSLASH>".toList, "\\".toList),
    ("<CARET>".toList, "^".toList),
    ("<COPYRIGHT>".toList, "\u00A9".toList),
    ("<ELLIPSIS>".toList, "\u2026".toList),
    ("<REGTM>".toList, "\u00AE".toList),
    ("<TRADEMARK>".toList, "\u2122".toList),
    ("<LEFTPARENTHESIS>".toList, "\\(".toList),
    ("<RIGHTPARENTHESIS>".toList, "\\)".toList),
    ("<LEFT_SQUARE_BRACKET>".toList, "\\[".toList),
    ("<RIGHT_SQUARE_BRACKET>".toList, "\\]".toList),
    ("<LEFT_CURLY_BRACKET>".toList, "\\\x7b".toList),
    ("<RIGHT_CURLY_BRACKET>".toList, "\\\x7d".toList) ]

/-- The capture-group placeholder table (step 2, Replacement mode only). -/
def FOUND_TAGS : List (List Char × List Char) :=
  [ ("<FOUND1>".toList, "\\g<1>".toList),
    ("<FOUND2>".toList, "\\g<2>".toList),
    ("<FOUND3>".toList, "\\g<3>".toList),
    ("<FOUND4>".toList, "\\g<4>".toList),
    ("<FOUND5>".toList, "\\g<5>".toList),
    ("<FOUND6>".toList, "\\g<6>".toList),
    ("<FOUND7>".toList, "\\g<7>".toList),
    ("<FOUND8>".toList, "\\g<8>".toList),
    ("<FOUND9>".toList, "\\g<9>".toList) ]

def hexDigitVal (c : Char) : Option Nat :=
  if '0' ≤ c ∧ c ≤ '9' then some (c.toNat - 48)
  else if 'a' ≤ c ∧ c ≤ 'f' then some (c.toNat - 87)
  else if 'A' ≤ c ∧ c ≤ 'F' then some (c.toNat - 55)
  else none

def isHexDigitCh (c : Char) : Bool := (hexDigitVal c).isSome

def hexFold (ds : List Char) : Nat :=
  ds.foldl (fun a c => a * 16 + (hexDigitVal c).getD 0) 0

/-- Fueled scanner for one of the steps
`re.sub(r"\\u(4 hex)" / r"\\x(2 hex)" / r"\\U(8 hex)", chr ∘ int, text)`:
`m` is the marker letter after the backslash and `n` the digit count.
A decoded scalar that is not a Unicode scalar value yields `none` (for `\U`
beyond 0x10FFFF this is CPython's `ValueError`; lone surrogates, which Python
strings admit, are outside this model of strings). -/
def subHexEscF (m : Char) (n : Nat) : Nat → List Char → Option (List Char)
  | 0, s => some s
  | _ + 1, [] => some []
  | f + 1, c :: rest =>
    if c = '\\' then
      match rest with
      | [] => some ['\\']
      | d :: rest2 =>
        if d = m then
          let ds := rest2.take n
          if ds.length = n ∧ ds.all isHexDigitCh then
            let v := hexFold ds
            if Nat.isValidChar v then
              (subHexEscF m n f (rest2.drop n)).map (fun t => Char.ofNat v :: t)
            else none
          else (subHexEscF m n f rest).map (fun t => '\\' :: t)
        else (subHexEscF m n f rest).map (fun t => '\\' :: t)
    else (subHexEscF m n f rest).map (fun t => c :: t)

def subHexEsc (m : Char) (n : Nat) (s : List Char) : Option (List Char) :=
  subHexEscF m n (s.length + 1) s

/-- Fueled scanner for step 4, `re.sub(r"\\N\x7b([^\x7d]+)\x7d", lookup, text)`:
a named-codepoint escape resolved through `lk` (the `unicodedata.lookup`
collaborator); an unknown name is a failure (`KeyError` escapes). -/
def subNameEscF (lk : List Char → Option Char) : Nat → List Char → Option (List Char)
  | 0, s => some s
  | _ + 1, [] => some []
  | f + 1, c :: rest =>
    if c = '\\' then
      if rest.take 2 = ['N', '\x7b'] then
        let rest2 := rest.drop 2
        let name := rest2.takeWhile (fun ch => ch ≠ '\x7d')
        if name.length < rest2.length ∧ name ≠ [] then
          match lk name with
          | some ch => (subNameEscF lk f (rest2.drop (name.length + 1))).map (fun t => ch :: t)
          | none => none
        else (subNameEscF lk f rest).map (fun t => '\\' :: t)
      else (subNameEscF lk f rest).map (fun t => '\\' :: t)
    else (subNameEscF lk f rest).map (fun t => c :: t)

def subNameEsc (lk : List Char → Option Char) (s : List Char) : Option (List Char) :=
  subNameEscF lk (s.length + 1) s

/-- `normalize_input(text, is_pattern)` of `greps.py`: symbolic tags, capture
placeholders (Replacement mode), numeric escapes `\u`/`\x`/`\U`, named
codepoints `\N`, and — in Replacement mode only — literal decoding of `\t`,
`\n`, `\r`.  `none` models an exception escaping the function. -/
def normTags (t : List Char) : List Char :=
  TAGS.foldl (fun acc pr => strReplace acc pr.1 pr.2) t

def normFound (t : List Char) : List Char :=
  FOUND_TAGS.foldl (fun acc pr => strReplace acc pr.1 pr.2) t

def normalize_input (lk : List Char → Option Char) (text : List Char)
    (is_pattern : Bool) : Option (List Char) :=
  if text = [] then some text
  else
    let t1 := normTags text
    let t2 := if is_pattern then t1 else normFound t1
    (subHexEsc 'u' 4 t2).bind (fun t3 =>
    (subHexEsc 'x' 2 t3).bind (fun t4 =>
    (subHexEsc 'U' 8 t4).bind (fun t5 =>
    (subNameEsc lk t5).map (fun t6 =>
      if is_pattern then t6
      else strReplace (strReplace (strReplace t6
             "\\t".toList "\t".toList)
             "\\n".toList "\n".toList)
             "\\r".toList "\r".toList))))

/- ---------------------------------------------------------------------------
QueryRepository: the persisted `queries.json` store and `update_history`.
--------------------------------------------------------------------------- -/

/-- A persisted JSON value, in the shapes §6 of the store contract uses:
a string, an array of strings (query pairs and history lists), or anything
else (`jother`), which `update_history`'s `isinstance(lst, list)` guard
coerces to the empty list. -/
inductive JVal : Type
  | jstr (s : List Char)
  | jarr (xs : List (List Char))
  | jother
deriving DecidableEq, Repr

/-- Python whitespace (`str.strip`): ASCII whitespace and the Unicode space
characters `str.isspace` recognises. -/
def isPySpace (c : Char) : Bool :=
  c = ' ' || c = '\t' || c = '\n' || c = '\r' || c = '\x0b' || c = '\x0c' ||
  c = '\x1c' || c = '\x1d' || c = '\x1e' || c = '\x1f' || c = '\x85' ||
  c = '\u00a0' || c = '\u1680' ||
  ('\u2000' ≤ c && c ≤ '\u200a') ||
  c = '\u2028' || c = '\u2029' || c = '\u202f' || c = '\u205f' || c = '\u3000'

/-- Python `value.strip()`. -/
def pyStrip (s : List Char) : List Char :=
  ((s.dropWhile isPySpace).reverse.dropWhile isPySpace).reverse

/-- The list stored under `key`, coerced to `[]` when absent or not a list
(the first three lines of `update_history`). -/
def storedHist (data : List (List Char × JVal)) (key : List Char) : List (List Char) :=
  match getKey data key with
  | some (.jarr xs) => xs
  | _ => []

/-- `update_history(key, value)` of `greps.py`, acting on the whole persisted
store: trim the value; when non-empty, remove an equal entry and insert at the
front; in every case write back the first 10 entries under `key`. -/
def update_history (data : List (List Char × JVal)) (key value : List Char) :
    List (List Char × JVal) :=
  let lst := storedHist data key
  let v := pyStrip value
  let lst2 := if v = [] then lst else v :: lst.erase v
  setKey data key (.jarr (lst2.take 10))

/- ---------------------------------------------------------------------------
SearchCursor state and the Scribus/store world.
--------------------------------------------------------------------------- -/

/-- The `search_state` dictionary of `greps.py`.  `storyIndex` is a `Nat`:
in the source it is only ever assigned `0` or incremented, so the defensive
`idx < 0` test in `on_change`/`on_change_find` cannot fire; `charIndex`
keeps Python's `int` type because its `<= 0` / `< 0` tests are reachable. -/
structure SearchState : Type where
  mode : Option (List Char)
  pattern : Option (List Char)
  regex : Option PyRegex
  frames : List Nat
  storyIndex : Nat
  charIndex : Int
  foundCount : Nat
  cache : List (Nat × List Char)
deriving DecidableEq, Repr

/-- `search_state_reset()`: every field cleared. -/
def initState : SearchState :=
  { mode := none, pattern := none, regex := none, frames := [],
    storyIndex := 0, charIndex := 0, foundCount := 0, cache := [] }

/-- The external collaborators' mutable state: the Scribus story texts keyed
by root frame (`getAllText`/`setText`/delete-insert act here) and the
persisted `queries.json` mapping. -/
structure World : Type where
  doc : List (Nat × List Char)
  store : List (List Char × JVal)
deriving DecidableEq, Repr

/-- Container derivation for a scope (`init_search_state_if_needed` and
`on_change_all` share this logic): Story → the current selection's root
(`get_current_story_root`), or none; Document → all story roots
(`get_story_roots_for_document`).  The two Scribus queries are the
parameters `storyRoot` and `docRoots`. -/
def deriveFramesForMode (mode : List Char) (docRoots : List Nat)
    (storyRoot : Option Nat) : List Nat :=
  if mode = "Story".toList then
    match storyRoot with
    | some r => [r]
    | none => []
  else docRoots

/- ---------------------------------------------------------------------------
`on_find_next` (Find next).
--------------------------------------------------------------------------- -/

inductive FindResult : Type
  | normError
  | emptyPattern
  | compileError
  | noFrames
  | found (frame st en : Nat)
  | exhausted (count : Nat)
deriving DecidableEq, Repr

/-- The `while search_state["story_index"] < len(frames)` loop of
`on_find_next`, threading the cache, the two cursor fields and the match
counter.  Fuel = `frames.length + 1` iterations always suffices because the
story index increases at every continue.  Returns the final
`(cache, storyIndex, charIndex, foundCount)` and the reported match, `none`
meaning every story was exhausted. -/
def findLoop (rg : PyRegex) (doc : List (Nat × List Char)) (frames : List Nat) :
    Nat → List (Nat × List Char) → Nat → Int → Nat →
    List (Nat × List Char) × Nat × Int × Nat × Option (Nat × Nat × Nat)
  | 0, cache, si, ci, fc => (cache, si, ci, fc, none)
  | f + 1, cache, si, ci, fc =>
    if si < frames.length then
      let frame := frames.getD si 0
      let (txt, cache1) :=
        match getKey cache frame with
        | some t => (t, cache)
        | none =>
          let t := (getKey doc frame).getD []
          (t, setKey cache frame t)
      match reSearch rg txt ci.toNat with
      | some (st, en) =>
        if en = st then findLoop rg doc frames f cache1 (si + 1) 0 fc
        else (cache1, si, (en : Int), fc + 1, some (frame, st, en))
      | none => findLoop rg doc frames f cache1 (si + 1) 0 fc
    else (cache, si, ci, fc, none)

/-- `on_find_next` of `greps.py`.  `fw`, `cht` and `combo` are the dialog's
raw field values; `docRoots`/`storyRoot` the Scribus frame queries; `co` the
outcome of `re.compile` on the normalized pattern (`none` = `re.error`);
`lk` the `unicodedata.lookup` collaborator. -/
def on_find_next (lk : List Char → Option Char) (fw cht combo : List Char)
    (docRoots : List Nat) (storyRoot : Option Nat) (co : Option PyRegex)
    (s : SearchState) (w : World) : SearchState × World × FindResult :=
  match normalize_input lk fw true with
  | none => (s, w, .normError)
  | some pat =>
    if pat = [] then (initState, w, .emptyPattern)
    else
      -- compile (or reuse) the regex; on success the state's regex/pattern
      -- are refreshed.  The `else` arm's `none` case is unreachable (the
      -- reuse branch requires `s.regex ≠ none`); it is mapped to the same
      -- result as a compile failure.
      match (if s.regex = none ∨ s.pattern ≠ some pat then
               co.map (fun rg => (rg, { s with regex := some rg, pattern := some pat }))
             else s.regex.map (fun rg => (rg, s))) with
      | none => (initState, w, .compileError)
      | some (rg, s1) =>
        -- init_search_state_if_needed
        let mode := if combo = [] then "Document".toList else combo
        let s2 := if s1.mode ≠ some mode ∨ s1.pattern ≠ some pat then
                    { initState with mode := some mode, pattern := some pat }
                  else s1
        let s3 := if s2.frames ≠ [] then s2
                  else { s2 with
                         frames := deriveFramesForMode mode docRoots storyRoot,
                         storyIndex := 0, charIndex := 0 }
        if s3.frames = [] then (s3, w, .noFrames)
        else
          match findLoop rg w.doc s3.frames (s3.frames.length + 1)
                  s3.cache s3.storyIndex s3.charIndex s3.foundCount with
          | (cache1, si1, ci1, fc1, some (frame, st, en)) =>
            let store1 := update_history w.store "_find_what_history".toList fw
            let store2 := update_history store1 "_change_to_history".toList cht
            ({ s3 with
               cache := cache1, storyIndex := si1, charIndex := ci1,
               foundCount := fc1 },
             { w with store := store2 }, .found frame st en)
          | (_, _, _, fc1, none) => (initState, w, .exhausted fc1)

/- ---------------------------------------------------------------------------
`on_change` (Change).
--------------------------------------------------------------------------- -/

inductive ChangeResult : Type
  | normError
  | emptyPattern
  | compileError
  | noFrames
  | badIndex
  | noText
  | noActive
  | noMatchAtEnd
  | expandError
  | replaced (frame st : Nat) (newText : List Char)
deriving DecidableEq, Repr

/-- The clamp `if gend > len(full_text): gend = len(full_text)` applied to
the stored cursor offset before the active match is sought. -/
def onChangeGend (txt : List Char) (ci : Int) : Int :=
  if ci > (txt.length : Int) then (txt.length : Int) else ci

/-- The active-match re-derivation of `on_change`/`on_change_find`: the first
match, in `finditer`'s left-to-right order, whose end offset equals `gend`. -/
def locateMatch (rg : PyRegex) (txt : List Char) (gend : Int) : Option (Nat × Nat) :=
  (reFinditer rg txt).find? (fun pr => ((pr.2 : Int) = gend : Bool))

/-- `on_change` of `greps.py`: replace the currently found match (the one
ending at the stored `char_index`) and keep the replacement selected.
The Scribus select/delete/insert sequence is modelled by its net effect, a
splice of the story's text in `w.doc`. -/
def on_change (lk : List Char → Option Char) (fw cht : List Char)
    (co : Option PyRegex) (s : SearchState) (w : World) :
    SearchState × World × ChangeResult :=
  match normalize_input lk fw true with
  | none => (s, w, .normError)
  | some pat =>
    match normalize_input lk cht false with
    | none => (s, w, .normError)
    | some rep =>
      if pat = [] then (s, w, .emptyPattern)
      else
        match (if s.regex = none ∨ s.pattern ≠ some pat then
                 co.map (fun rg => (rg, { s with regex := some rg, pattern := some pat }))
               else s.regex.map (fun rg => (rg, s))) with
        | none => (s, w, .compileError)
        | some (rg, s1) =>
          if s1.frames = [] then (s1, w, .noFrames)
          else if s1.frames.length ≤ s1.storyIndex then (s1, w, .badIndex)
          else
            let frame := s1.frames.getD s1.storyIndex 0
            let (txt, s2) :=
              match getKey s1.cache frame with
              | some t => (t, s1)
              | none =>
                let t := (getKey w.doc frame).getD []
                (t, { s1 with cache := setKey s1.cache frame t })
            if txt = [] then (s2, w, .noText)
            else if s2.charIndex ≤ 0 then (s2, w, .noActive)
            else
              let gend := onChangeGend txt s2.charIndex
              match locateMatch rg txt gend with
              | none => (s2, w, .noMatchAtEnd)
              | some (gstart, oldEnd) =>
                match pyExpand rep ((txt.drop gstart).take (oldEnd - gstart)) with
                | none => (s2, w, .expandError)
                | some newText =>
                  let s3 := { s2 with
                    cache := setKey s2.cache frame (splice txt gstart oldEnd newText) }
                  let dt := (getKey w.doc frame).getD []
                  let w2 := { w with
                    doc := setKey w.doc frame
                      (splice dt gstart (gstart + (oldEnd - gstart)) newText) }
                  ({ s3 with charIndex := (gstart : Int) + newText.length },
                   w2, .replaced frame gstart newText)

/- ---------------------------------------------------------------------------
`on_change_all` (Change all).
--------------------------------------------------------------------------- -/

inductive ChangeAllResult : Type
  | normError
  | emptyPattern
  | noStory
  | compileError
  | subError
  | done (count : Nat)
deriving DecidableEq, Repr

/-- `effective_mode = search_state["mode"] or (searchCombo.get() or "Document")`:
the session's stored mode wins whenever it is truthy; the requested combo
value applies only otherwise, with `"Document"` as the final default. -/
def changeAllEffectiveMode (sm : Option (List Char)) (combo : List Char) : List Char :=
  match sm with
  | some m => if m = [] then (if combo = [] then "Document".toList else combo) else m
  | none => if combo = [] then "Document".toList else combo

/-- The container-list resolution of `on_change_all`: reuse the session's
frames when the session's mode equals the effective mode and the list is
non-empty, otherwise re-derive for the effective mode from the text store. -/
def changeAllFrames (s : SearchState) (combo : List Char) (docRoots : List Nat)
    (storyRoot : Option Nat) : List Nat :=
  let em := changeAllEffectiveMode s.mode combo
  if s.mode = some em ∧ s.frames ≠ [] then s.frames
  else deriveFramesForMode em docRoots storyRoot

/-- The `for frame in frames` loop of `on_change_all`: re-read each story's
full text from the store, skip empty ones, substitute globally, write back.
Returns the final document and `some count` on completion; `none` when an
expansion error escaped the `repl` callback mid-pass (stories already
processed keep their new text, the pass aborts). -/
def changeAllLoop (rg : PyRegex) (rep : List Char) :
    List Nat → List (Nat × List Char) → Nat → List (Nat × List Char) × Option Nat
  | [], doc, count => (doc, some count)
  | frame :: rest, doc, count =>
    let txt := (getKey doc frame).getD []
    if txt = [] then changeAllLoop rg rep rest doc count
    else
      match reSubCount rg rep txt with
      | none => (doc, none)
      | some (newTxt, k) => changeAllLoop rg rep rest (setKey doc frame newTxt) (count + k)

/-- `on_change_all` of `greps.py`: one global substitution pass per resolved
container; reports the total count and resets the session — but only when the
pass actually ran to completion (early aborts return with the session as it
was, and an escaped expansion exception aborts without the reset). -/
def on_change_all (lk : List Char → Option Char) (fw cht combo : List Char)
    (docRoots : List Nat) (storyRoot : Option Nat) (co : Option PyRegex)
    (s : SearchState) (w : World) : SearchState × World × ChangeAllResult :=
  match normalize_input lk fw true with
  | none => (s, w, .normError)
  | some pat =>
    match normalize_input lk cht false with
    | none => (s, w, .normError)
    | some rep =>
      if pat = [] then (s, w, .emptyPattern)
      else
        if changeAllFrames s combo docRoots storyRoot = [] then (s, w, .noStory)
        else
          match co with
          | none => (s, w, .compileError)
          | some rg =>
            match changeAllLoop rg rep (changeAllFrames s combo docRoots storyRoot)
                w.doc 0 with
            | (doc2, some n) => (initState, { w with doc := doc2 }, .done n)
            | (doc2, none) => (s, { w with doc := doc2 }, .subError)

/- ---------------------------------------------------------------------------
`on_change_find` (Change/Find).
--------------------------------------------------------------------------- -/

inductive ChangeFindResult : Type
  | normError
  | emptyPattern
  | compileError
  | noFrames
  | badIndex
  | noText
  | noActive
  | noMatchAtEnd
  | expandError
  | found (frame st en : Nat)
  | exhausted (count : Nat)
deriving DecidableEq, Repr

/-- The search loop at the end of `on_change_find`.  It differs from
`findLoop` in two ways, both faithful to the source: an out-of-range scan
position is reset to `0` before searching, and there is **no** zero-length
guard — an empty match is selected, counted and reported like any other. -/
def changeFindLoop (rg : PyRegex) (doc : List (Nat × List Char)) (frames : List Nat) :
    Nat → List (Nat × List Char) → Nat → Int → Nat →
    List (Nat × List Char) × Nat × Int × Nat × Option (Nat × Nat × Nat)
  | 0, cache, si, ci, fc => (cache, si, ci, fc, none)
  | f + 1, cache, si, ci, fc =>
    if si < frames.length then
      let frame := frames.getD si 0
      let (txt, cache1) :=
        match getKey cache frame with
        | some t => (t, cache)
        | none =>
          let t := (getKey doc frame).getD []
          (t, setKey cache frame t)
      let i : Int := if ci < 0 ∨ ci > (txt.length : Int) then 0 else ci
      match reSearch rg txt i.toNat with
      | some (st, en) => (cache1, si, (en : Int), fc + 1, some (frame, st, en))
      | none => changeFindLoop rg doc frames f cache1 (si + 1) 0 fc
    else (cache, si, ci, fc, none)

/-- `on_change_find` of `greps.py`: replace the active match exactly as
`on_change` does, then — without re-deriving scope or containers — resume the
search loop in the same container from the post-replace cursor offset. -/
def on_change_find (lk : List Char → Option Char) (fw cht : List Char)
    (co : Option PyRegex) (s : SearchState) (w : World) :
    SearchState × World × ChangeFindResult :=
  match normalize_input lk fw true with
  | none => (s, w, .normError)
  | some pat =>
    match normalize_input lk cht false with
    | none => (s, w, .normError)
    | some rep =>
      if pat = [] then (s, w, .emptyPattern)
      else
        match (if s.regex = none ∨ s.pattern ≠ some pat then
                 co.map (fun rg => (rg, { s with regex := some rg, pattern := some pat }))
               else s.regex.map (fun rg => (rg, s))) with
        | none => (s, w, .compileError)
        | some (rg, s1) =>
          if s1.frames = [] then (s1, w, .noFrames)
          else if s1.frames.length ≤ s1.storyIndex then (s1, w, .badIndex)
          else
            let frame := s1.frames.getD s1.storyIndex 0
            let (txt, s2) :=
              match getKey s1.cache frame with
              | some t => (t, s1)
              | none =>
                let t := (getKey w.doc frame).getD []
                (t, { s1 with cache := setKey s1.cache frame t })
            if txt = [] then (s2, w, .noText)
            else if s2.charIndex ≤ 0 then (s2, w, .noActive)
            else
              let gend := onChangeGend txt s2.charIndex
              match locateMatch rg txt gend with
              | none => (s2, w, .noMatchAtEnd)
              | some (gstart, oldEnd) =>
                match pyExpand rep ((txt.drop gstart).take (oldEnd - gstart)) with
                | none => (s2, w, .expandError)
                | some newText =>
                  let cache3 := setKey s2.cache frame (splice txt gstart oldEnd newText)
                  let dt := (getKey w.doc frame).getD []
                  let w2 := { w with
                    doc := setKey w.doc frame
                      (splice dt gstart (gstart + (oldEnd - gstart)) newText) }
                  let ci1 : Int := (gstart : Int) + newText.length
                  match changeFindLoop rg w2.doc s2.frames (s2.frames.length + 1)
                          cache3 s2.storyIndex ci1 s2.foundCount with
                  | (cache4, si4, ci4, fc4, some (fr, st, en)) =>
                    ({ s2 with
                       cache := cache4, storyIndex := si4, charIndex := ci4,
                       foundCount := fc4 }, w2, .found fr st en)
                  | (_, _, _, fc4, none) => (initState, w2, .exhausted fc4)

/- ---------------------------------------------------------------------------
Concrete collaborators and scenario states used by the claim theorems.
--------------------------------------------------------------------------- -/

/-- A `unicodedata.lookup` collaborator that knows no names (none of the
scenarios below uses a named-codepoint escape, so any lookup would do). -/
def noLk : List Char → Option Char := fun _ => none

/-- `re.compile("ab")`. -/
def abRG : PyRegex := litRegex "ab".toList

/-- `re.compile("cat")`. -/
def catRG : PyRegex := litRegex "cat".toList

/-- `re.compile("x*")`. -/
def xstarRG : PyRegex := ⟨[RAtom.star 'x']⟩

/-- Refinement comparison for claim C7.  This definition follows the claim's
words, not the source: reuse the session's container list exactly when the
session's stored scope equals the **requested** scope, otherwise re-derive
the list for the requested scope from the text store. -/
def claimFramesResolution (s : SearchState) (requested : List Char)
    (docRoots : List Nat) (storyRoot : Option Nat) : List Nat :=
  if s.mode = some requested then s.frames
  else deriveFramesForMode requested docRoots storyRoot

/-- World for the C2 scenario: one story holding `"ababab"`. -/
def c2w : World := ⟨[(1, "ababab".toList)], []⟩

/-- First Find-next call of the C2 scenario. -/
def c2r1 : SearchState × World × FindResult :=
  on_find_next noLk "ab".toList [] "Document".toList [1] none (some abRG) initState c2w

/-- Second Find-next call of the C2 scenario. -/
def c2r2 : SearchState × World × FindResult :=
  on_find_next noLk "ab".toList [] "Document".toList [1] none (some abRG) c2r1.1 c2r1.2.1

/-- Third Find-next call of the C2 scenario. -/
def c2r3 : SearchState × World × FindResult :=
  on_find_next noLk "ab".toList [] "Document".toList [1] none (some abRG) c2r2.1 c2r2.2.1

/-- Fourth Find-next call of the C2 scenario. -/
def c2r4 : SearchState × World × FindResult :=
  on_find_next noLk "ab".toList [] "Document".toList [1] none (some abRG) c2r3.1 c2r3.2.1

/-- World for the C1 scenario: one story holding `"cat dog"`. -/
def c1w : World := ⟨[(1, "cat dog".toList)], []⟩

/-- The Find-next call preceding the C1 replace (it matches `(0,3)`). -/
def c1r1 : SearchState × World × FindResult :=
  on_find_next noLk "cat".toList "dog".toList "Document".toList [1] none (some catRG)
    initState c1w

/-- An active mid-session state (pattern `"cat"`, one frame, offset 3),
used to exhibit sessions that survive aborted operations. -/
def activeS : SearchState :=
  { mode := some "Document".toList, pattern := some "cat".toList, regex := some catRG,
    frames := [1], storyIndex := 0, charIndex := 3, foundCount := 1,
    cache := [(1, "cat dog".toList)] }

/-- A session whose scope is Story, used for the C7 scenario. -/
def c7s : SearchState :=
  { mode := some "Story".toList, pattern := some "cat".toList, regex := some catRG,
    frames := [1], storyIndex := 0, charIndex := 3, foundCount := 1,
    cache := [(1, "cat".toList)] }

/-- The C7 run: session scope Story, requested scope Document, two stories. -/
def c7run : SearchState × World × ChangeAllResult :=
  on_change_all noLk "cat".toList "dog".toList "Document".toList [1, 2] (some 1)
    (some catRG) c7s ⟨[(1, "cat".toList), (2, "cat".toList)], []⟩

/-- Session state for the C8 zero-length scenario: pattern `x*` over the
story `"xx a"`, after an advance that matched `(0,2)`. -/
def c8s : SearchState :=
  { mode := some "Document".toList, pattern := some "x*".toList, regex := some xstarRG,
    frames := [1], storyIndex := 0, charIndex := 2, foundCount := 1,
    cache := [(1, "xx a".toList)] }

/-- The C8 zero-length run: Change/Find with replacement `"y"`. -/
def c8run : SearchState × World × ChangeFindResult :=
  on_change_find noLk "x*".toList "y".toList none c8s ⟨[(1, "xx a".toList)], []⟩

/-- Session state for the C8 continuation scenario: pattern `cat` over the
story `"cat cat"`, after an advance that matched `(0,3)`. -/
def c8s2 : SearchState :=
  { mode := some "Document".toList, pattern := some "cat".toList, regex := some catRG,
    frames := [1], storyIndex := 0, charIndex := 3, foundCount := 1,
    cache := [(1, "cat cat".toList)] }

/-- The C8 continuation run: Change/Find with replacement `"dog"`. -/
def c8run2 : SearchState × World × ChangeFindResult :=
  on_change_find noLk "cat".toList "dog".toList none c8s2 ⟨[(1, "cat cat".toList)], []⟩

/-- An eleven-entry history list (longer than the 10-entry bound, as a
hand-edited `queries.json` can contain). -/
def hist11 : List (List Char) :=
  [['a'], ['b'], ['c'], ['d'], ['e'], ['f'], ['g'], ['h'], ['i'], ['j'], ['k']]

/- ---------------------------------------------------------------------------
Supporting lemmas.
--------------------------------------------------------------------------- -/

theorem maxRun_le (c : Char) : ∀ s : List Char, maxRun c s ≤ s.length := by
  intro s
  induction s with
  | nil => simp [maxRun]
  | cons x xs ih =>
    simp only [maxRun, List.length_cons]
    split
    · omega
    · omega

theorem matchAtoms_le : ∀ (atoms : List RAtom) (s : List Char) (n : Nat),
    matchAtoms atoms s = some n → n ≤ s.length := by
  intro atoms
  induction atoms with
  | nil => intro s n h; simp [matchAtoms] at h; omega
  | cons a rest ih =>
    intro s n h
    cases a with
    | lit c =>
      cases s with
      | nil => simp [matchAtoms] at h
      | cons x xs =>
        simp only [matchAtoms] at h
        split at h
        · rw [Option.map_eq_some'] at h
          obtain ⟨m, hm, hn⟩ := h
          have := ih xs m hm
          simp only [List.length_cons]
          omega
        · exact absurd h (by simp)
    | star c =>
      simp only [matchAtoms] at h
      have hmem : n ∈ (List.range (maxRun c s + 1)).reverse.filterMap
          (fun k => (matchAtoms rest (s.drop k)).map (fun m => k + m)) := by
        cases hl : (List.range (maxRun c s + 1)).reverse.filterMap
            (fun k => (matchAtoms rest (s.drop k)).map (fun m => k + m)) with
        | nil => rw [hl] at h; simp at h
        | cons y ys =>
          rw [hl] at h
          simp only [List.head?_cons, Option.some.injEq] at h
          subst h
          exact List.mem_cons_self _ _
      rw [List.mem_filterMap] at hmem
      obtain ⟨k, hk, hfk⟩ := hmem
      rw [Option.map_eq_some'] at hfk
      obtain ⟨m, hm, hn⟩ := hfk
      have h1 : m ≤ (s.drop k).length := ih _ m hm
      have h2 : k ≤ maxRun c s := by
        rw [List.mem_reverse, List.mem_range] at hk
        omega
      have h3 := maxRun_le c s
      rw [List.length_drop] at h1
      omega

theorem reSearchF_bounds (rg : PyRegex) (s : List Char) :
    ∀ (f p st en : Nat), reSearchF rg s f p = some (st, en) →
      p ≤ st ∧ st ≤ en ∧ en ≤ s.length := by
  intro f
  induction f with
  | zero => intro p st en h; simp [reSearchF] at h
  | succ g ih =>
    intro p st en h
    simp only [reSearchF] at h
    split at h
    · exact absurd h (by simp)
    · rename_i hp
      split at h
      · rename_i n hn
        cases h
        have := matchAtoms_le rg.atoms (s.drop p) n hn
        rw [List.length_drop] at this
        refine ⟨le_refl _, by omega, by omega⟩
      · have := ih (p + 1) st en h
        omega

theorem reSearch_bounds (rg : PyRegex) (s : List Char) (p st en : Nat)
    (h : reSearch rg s p = some (st, en)) : p ≤ st ∧ st ≤ en ∧ en ≤ s.length :=
  reSearchF_bounds rg s (s.length + 1) p st en h

theorem finditerF_bounds (rg : PyRegex) (s : List Char) :
    ∀ (f p : Nat) (pr : Nat × Nat), pr ∈ finditerF rg s f p →
      pr.1 ≤ pr.2 ∧ pr.2 ≤ s.length := by
  intro f
  induction f with
  | zero => intro p pr h; simp [finditerF] at h
  | succ g ih =>
    intro p pr h
    simp only [finditerF] at h
    split at h
    · simp at h
    · rename_i st en hs
      rcases List.mem_cons.mp h with h1 | h1
      · subst h1
        have := reSearch_bounds rg s p st en hs
        exact ⟨by omega, by omega⟩
      · exact ih _ pr h1

theorem reFinditer_bounds (rg : PyRegex) (s : List Char) (pr : Nat × Nat)
    (h : pr ∈ reFinditer rg s) : pr.1 ≤ pr.2 ∧ pr.2 ≤ s.length :=
  finditerF_bounds rg s (s.length + 2) 0 pr h

theorem strReplaceF_not_mem (c : Char) (ps rep : List Char) :
    ∀ (s : List Char) (f : Nat), s.length < f → c ∉ s →
      strReplaceF f s (c :: ps) rep = s := by
  intro s
  induction s with
  | nil =>
    intro f hf _
    cases f with
    | zero => omega
    | succ g => simp [strReplaceF]
  | cons x xs ih =>
    intro f hf hm
    cases f with
    | zero => simp at hf
    | succ g =>
      have hx : ¬(c = x) := fun h => hm (h ▸ List.mem_cons_self _ _)
      have hxs : c ∉ xs := fun h => hm (List.mem_cons_of_mem _ h)
      have hlen : xs.length < g := by simp at hf; omega
      simp [strReplaceF, headMatches, hx, ih g hlen hxs]

theorem strReplace_not_mem (c : Char) (ps rep : List Char) (s : List Char)
    (hm : c ∉ s) : strReplace s (c :: ps) rep = s :=
  strReplaceF_not_mem c ps rep s (s.length + 1) (by omega) hm

theorem strReplaceF_split (rep : List Char) (e : Char) :
    ∀ (a : List Char) (b : List Char) (f : Nat),
      (a ++ '\\' :: e :: b).length < f → '\\' ∉ a → '\\' ∉ b →
      strReplaceF f (a ++ '\\' :: e :: b) ['\\', e] rep = a ++ rep ++ b := by
  intro a
  induction a with
  | nil =>
    intro b f hf _ hb
    cases f with
    | zero => simp at hf
    | succ g =>
      have hlen : b.length < g := by simp at hf; omega
      simp [strReplaceF, headMatches, strReplaceF_not_mem '\\' [e] rep b g hlen hb]
  | cons x xs ih =>
    intro b f hf ha hb
    cases f with
    | zero => simp at hf
    | succ g =>
      have hx : ¬('\\' = x) := fun h => ha (h ▸ List.mem_cons_self _ _)
      have hxs : '\\' ∉ xs := fun h => ha (List.mem_cons_of_mem _ h)
      have hlen : (xs ++ '\\' :: e :: b).length < g := by simp at hf ⊢; omega
      simp [strReplaceF, headMatches, hx, ih b g hlen hxs hb]

theorem strReplace_split (rep : List Char) (e : Char) (a b : List Char)
    (ha : '\\' ∉ a) (hb : '\\' ∉ b) :
    strReplace (a ++ '\\' :: e :: b) ['\\', e] rep = a ++ rep ++ b :=
  strReplaceF_split rep e a b ((a ++ '\\' :: e :: b).length + 1) (by omega) ha hb

theorem strReplaceF_split_miss (rep : List Char) (c e : Char) (hce : ¬(c = e))
    (he : ¬(e = '\\')) :
    ∀ (a b : List Char) (f : Nat),
      (a ++ '\\' :: e :: b).length < f → '\\' ∉ a → '\\' ∉ b →
      strReplaceF f (a ++ '\\' :: e :: b) ['\\', c] rep = a ++ '\\' :: e :: b := by
  intro a
  induction a with
  | nil =>
    intro b f hf _ hb
    cases f with
    | zero => simp at hf
    | succ g =>
      have hb2 : '\\' ∉ e :: b := by
        intro h
        rcases List.mem_cons.mp h with h1 | h1
        · exact he h1.symm
        · exact hb h1
      have hlen : (e :: b).length < g := by simp at hf ⊢; omega
      simp [strReplaceF, headMatches, hce,
        strReplaceF_not_mem '\\' [c] rep (e :: b) g hlen hb2]
  | cons x xs ih =>
    intro b f hf ha hb
    cases f with
    | zero => simp at hf
    | succ g =>
      have hx : ¬('\\' = x) := fun h => ha (h ▸ List.mem_cons_self _ _)
      have hxs : '\\' ∉ xs := fun h => ha (List.mem_cons_of_mem _ h)
      have hlen : (xs ++ '\\' :: e :: b).length < g := by simp at hf ⊢; omega
      simp [strReplaceF, headMatches, hx, ih b g hlen hxs hb]

theorem strReplace_split_miss (rep : List Char) (c e : Char) (hce : ¬(c = e))
    (he : ¬(e = '\\')) (a b : List Char) (ha : '\\' ∉ a) (hb : '\\' ∉ b) :
    strReplace (a ++ '\\' :: e :: b) ['\\', c] rep = a ++ '\\' :: e :: b :=
  strReplaceF_split_miss rep c e hce he a b ((a ++ '\\' :: e :: b).length + 1)
    (by omega) ha hb

theorem foldl_strReplace_id :
    ∀ (l : List (List Char × List Char)) (s : List Char),
      (∀ pr ∈ l, pr.1.head? = some '<') → '<' ∉ s →
      l.foldl (fun acc pr => strReplace acc pr.1 pr.2) s = s := by
  intro l
  induction l with
  | nil => intro s _ _; rfl
  | cons pr rest ih =>
    intro s hl hs
    have hhd := hl pr (List.mem_cons_self _ _)
    simp only [List.foldl_cons]
    cases h1 : pr.1 with
    | nil => rw [h1] at hhd; simp at hhd
    | cons c cs =>
      rw [h1] at hhd
      simp only [List.head?_cons, Option.some.injEq] at hhd
      subst hhd
      rw [strReplace_not_mem '<' cs pr.2 s hs]
      exact ih s (fun q hq => hl q (List.mem_cons_of_mem _ hq)) hs

theorem subHexEscF_not_mem (m : Char) (n : Nat) :
    ∀ (s : List Char) (f : Nat), s.length < f → '\\' ∉ s →
      subHexEscF m n f s = some s := by
  intro s
  induction s with
  | nil =>
    intro f hf _
    cases f with
    | zero => omega
    | succ g => simp [subHexEscF]
  | cons x xs ih =>
    intro f hf hm
    cases f with
    | zero => simp at hf
    | succ g =>
      have hx : ¬(x = '\\') := fun h => hm (h ▸ List.mem_cons_self _ _)
      have hxs : '\\' ∉ xs := fun h => hm (List.mem_cons_of_mem _ h)
      have hlen : xs.length < g := by simp at hf; omega
      simp [subHexEscF, hx, ih g hlen hxs]

theorem subHexEscF_split (m : Char) (n : Nat) (e : Char) (hme : ¬(e = m))
    (he : ¬(e = '\\')) :
    ∀ (a b : List Char) (f : Nat),
      (a ++ '\\' :: e :: b).length < f → '\\' ∉ a → '\\' ∉ b →
      subHexEscF m n f (a ++ '\\' :: e :: b) = some (a ++ '\\' :: e :: b) := by
  intro a
  induction a with
  | nil =>
    intro b f hf _ hb
    cases f with
    | zero => simp at hf
    | succ g =>
      have hb2 : '\\' ∉ e :: b := by
        intro h
        rcases List.mem_cons.mp h with h1 | h1
        · exact he h1.symm
        · exact hb h1
      have hlen : (e :: b).length < g := by simp at hf ⊢; omega
      simp [subHexEscF, hme, subHexEscF_not_mem m n (e :: b) g hlen hb2]
  | cons x xs ih =>
    intro b f hf ha hb
    cases f with
    | zero => simp at hf
    | succ g =>
      have hx : ¬(x = '\\') := fun h => ha (h ▸ List.mem_cons_self _ _)
      have hxs : '\\' ∉ xs := fun h => ha (List.mem_cons_of_mem _ h)
      have hlen : (xs ++ '\\' :: e :: b).length < g := by simp at hf ⊢; omega
      simp [subHexEscF, hx, ih b g hlen hxs hb]

theorem subHexEsc_split (m : Char) (n : Nat) (e : Char) (hme : ¬(e = m))
    (he : ¬(e = '\\')) (a b : List Char) (ha : '\\' ∉ a) (hb : '\\' ∉ b) :
    subHexEsc m n (a ++ '\\' :: e :: b) = some (a ++ '\\' :: e :: b) :=
  subHexEscF_split m n e hme he a b ((a ++ '\\' :: e :: b).length + 1) (by omega) ha hb

theorem subNameEscF_not_mem (lk : List Char → Option Char) :
    ∀ (s : List Char) (f : Nat), s.length < f → '\\' ∉ s →
      subNameEscF lk f s = some s := by
  intro s
  induction s with
  | nil =>
    intro f hf _
    cases f with
    | zero => omega
    | succ g => simp [subNameEscF]
  | cons x xs ih =>
    intro f hf hm
    cases f with
    | zero => simp at hf
    | succ g =>
      have hx : ¬(x = '\\') := fun h => hm (h ▸ List.mem_cons_self _ _)
      have hxs : '\\' ∉ xs := fun h => hm (List.mem_cons_of_mem _ h)
      have hlen : xs.length < g := by simp at hf; omega
      simp [subNameEscF, hx, ih g hlen hxs]

theorem subNameEscF_split (lk : List Char → Option Char) (e : Char)
    (heN : ¬(e = 'N')) (he : ¬(e = '\\')) :
    ∀ (a b : List Char) (f : Nat),
      (a ++ '\\' :: e :: b).length < f → '\\' ∉ a → '\\' ∉ b →
      subNameEscF lk f (a ++ '\\' :: e :: b) = some (a ++ '\\' :: e :: b) := by
  intro a
  induction a with
  | nil =>
    intro b f hf _ hb
    cases f with
    | zero => simp at hf
    | succ g =>
      have hb2 : '\\' ∉ e :: b := by
        intro h
        rcases List.mem_cons.mp h with h1 | h1
        · exact he h1.symm
        · exact hb h1
      have hlen : (e :: b).length < g := by simp at hf ⊢; omega
      simp [subNameEscF, heN, subNameEscF_not_mem lk (e :: b) g hlen hb2]
  | cons x xs ih =>
    intro b f hf ha hb
    cases f with
    | zero => simp at hf
    | succ g =>
      have hx : ¬(x = '\\') := fun h => ha (h ▸ List.mem_cons_self _ _)
      have hxs : '\\' ∉ xs := fun h => ha (List.mem_cons_of_mem _ h)
      have hlen : (xs ++ '\\' :: e :: b).length < g := by simp at hf ⊢; omega
      simp [subNameEscF, hx, ih b g hlen hxs hb]

theorem subNameEsc_split (lk : List Char → Option Char) (e : Char)
    (heN : ¬(e = 'N')) (he : ¬(e = '\\')) (a b : List Char)
    (ha : '\\' ∉ a) (hb : '\\' ∉ b) :
    subNameEsc lk (a ++ '\\' :: e :: b) = some (a ++ '\\' :: e :: b) :=
  subNameEscF_split lk e heN he a b ((a ++ '\\' :: e :: b).length + 1) (by omega) ha hb

/-- Passes 1-4 of `normalize_input` leave a control escape `\e` (backslash
followed by a letter that is not a tag bracket, a hex-escape marker or `N`)
intact in backslash- and bracket-free context; the Replacement-only pass 5
outcome is supplied as the hypothesis `hrep`. -/
theorem normalize_input_escape (lk : List Char → Option Char) (a b : List Char)
    (e : Char) (dec : List Char)
    (ha : '\\' ∉ a) (hb : '\\' ∉ b) (ha2 : '<' ∉ a) (hb2 : '<' ∉ b)
    (he : ¬(e = '\\')) (helt : ¬(e = '<'))
    (heu : ¬(e = 'u')) (hexx : ¬(e = 'x')) (heU : ¬(e = 'U')) (heN : ¬(e = 'N'))
    (hrep : strReplace (strReplace (strReplace (a ++ '\\' :: e :: b)
        ['\\', 't'] ['\t']) ['\\', 'n'] ['\n']) ['\\', 'r'] ['\r'] = dec) :
    normalize_input lk (a ++ '\\' :: e :: b) true = some (a ++ '\\' :: e :: b)
    ∧ normalize_input lk (a ++ '\\' :: e :: b) false = some dec := by
  have hne : a ++ '\\' :: e :: b ≠ [] := by simp
  have hlt : '<' ∉ a ++ '\\' :: e :: b := by
    intro h
    rcases List.mem_append.mp h with h1 | h1
    · exact ha2 h1
    · rcases List.mem_cons.mp h1 with h2 | h2
      · exact absurd h2 (by decide)
      · rcases List.mem_cons.mp h2 with h3 | h3
        · exact helt h3.symm
        · exact hb2 h3
  have htags : ∀ pr ∈ TAGS, pr.1.head? = some '<' := by decide
  have hfound : ∀ pr ∈ FOUND_TAGS, pr.1.head? = some '<' := by decide
  have h1 : normTags (a ++ '\\' :: e :: b) = a ++ '\\' :: e :: b :=
    foldl_strReplace_id TAGS _ htags hlt
  have h2 : normFound (a ++ '\\' :: e :: b) = a ++ '\\' :: e :: b :=
    foldl_strReplace_id FOUND_TAGS _ hfound hlt
  have hu := subHexEsc_split 'u' 4 e heu he a b ha hb
  have hx2 := subHexEsc_split 'x' 2 e hexx he a b ha hb
  have hU := subHexEsc_split 'U' 8 e heU he a b ha hb
  have hN := subNameEsc_split lk e heN he a b ha hb
  have e1 : "\\t".toList = ['\\', 't'] := rfl
  have e2 : "\t".toList = ['\t'] := rfl
  have e3 : "\\n".toList = ['\\', 'n'] := rfl
  have e4 : "\n".toList = ['\n'] := rfl
  have e5 : "\\r".toList = ['\\', 'r'] := rfl
  have e6 : "\r".toList = ['\r'] := rfl
  constructor
  · simp only [normalize_input, if_neg hne, h1, if_true, hu, hx2, hU, hN,
      Option.some_bind, Option.map_some']
  · simp only [normalize_input, if_neg hne, h1, Bool.false_eq_true, if_false, h2,
      hu, hx2, hU, hN, Option.some_bind, Option.map_some',
      e1, e2, e3, e4, e5, e6, hrep]

/-- C6: `normalize` in Pattern mode leaves each of the two-character escapes
`\t`, `\n`, `\r` textually intact, while Replacement mode decodes each of
them to the corresponding literal control character: for any surrounding
text free of backslashes and tag brackets, `normalize (a ++ esc ++ b)
Pattern` is unchanged and `normalize (a ++ esc ++ b) Replacement` holds the
literal tab, line feed or carriage return respectively. -/
theorem c6_normalize_ctrl_escapes (lk : List Char → Option Char) (a b : List Char)
    (ha : '\\' ∉ a) (hb : '\\' ∉ b) (ha2 : '<' ∉ a) (hb2 : '<' ∉ b) :
    (normalize_input lk (a ++ '\\' :: 't' :: b) true = some (a ++ '\\' :: 't' :: b)
      ∧ normalize_input lk (a ++ '\\' :: 't' :: b) false = some (a ++ '\t' :: b))
  ∧ (normalize_input lk (a ++ '\\' :: 'n' :: b) true = some (a ++ '\\' :: 'n' :: b)
      ∧ normalize_input lk (a ++ '\\' :: 'n' :: b) false = some (a ++ '\n' :: b))
  ∧ (normalize_input lk (a ++ '\\' :: 'r' :: b) true = some (a ++ '\\' :: 'r' :: b)
      ∧ normalize_input lk (a ++ '\\' :: 'r' :: b) false = some (a ++ '\r' :: b)) := by
  have hnbT : '\\' ∉ a ++ '\t' :: b := by
    intro h
    rcases List.mem_append.mp h with h1 | h1
    · exact ha h1
    · rcases List.mem_cons.mp h1 with h2 | h2
      · exact absurd h2 (by decide)
      · exact hb h2
  have hnbN : '\\' ∉ a ++ '\n' :: b := by
    intro h
    rcases List.mem_append.mp h with h1 | h1
    · exact ha h1
    · rcases List.mem_cons.mp h1 with h2 | h2
      · exact absurd h2 (by decide)
      · exact hb h2
  have hnbR : '\\' ∉ a ++ '\r' :: b := by
    intro h
    rcases List.mem_append.mp h with h1 | h1
    · exact ha h1
    · rcases List.mem_cons.mp h1 with h2 | h2
      · exact absurd h2 (by decide)
      · exact hb h2
  refine ⟨?_, ?_, ?_⟩
  · exact normalize_input_escape lk a b 't' (a ++ '\t' :: b) ha hb ha2 hb2
      (by decide) (by decide) (by decide) (by decide) (by decide) (by decide)
      (by
        rw [strReplace_split ['\t'] 't' a b ha hb]
        rw [show a ++ ['\t'] ++ b = a ++ '\t' :: b by simp]
        rw [strReplace_not_mem '\\' ['n'] ['\n'] _ hnbT]
        rw [strReplace_not_mem '\\' ['r'] ['\r'] _ hnbT])
  · exact normalize_input_escape lk a b 'n' (a ++ '\n' :: b) ha hb ha2 hb2
      (by decide) (by decide) (by decide) (by decide) (by decide) (by decide)
      (by
        rw [strReplace_split_miss ['\t'] 't' 'n' (by decide) (by decide) a b ha hb]
        rw [strReplace_split ['\n'] 'n' a b ha hb]
        rw [show a ++ ['\n'] ++ b = a ++ '\n' :: b by simp]
        rw [strReplace_not_mem '\\' ['r'] ['\r'] _ hnbN])
  · exact normalize_input_escape lk a b 'r' (a ++ '\r' :: b) ha hb ha2 hb2
      (by decide) (by decide) (by decide) (by decide) (by decide) (by decide)
      (by
        rw [strReplace_split_miss ['\t'] 't' 'r' (by decide) (by decide) a b ha hb]
        rw [strReplace_split_miss ['\n'] 'n' 'r' (by decide) (by decide) a b ha hb]
        rw [strReplace_split ['\r'] 'r' a b ha hb]
        simp)

/-- C6 witness: the three escapes at the claim's own instance shape —
`"a\tb"`, `"a\nb"`, `"a\rb"`, each in both modes. -/
theorem c6_normalize_ctrl_escapes_witness :
    (normalize_input noLk "a\\tb".toList true = some "a\\tb".toList
      ∧ normalize_input noLk "a\\tb".toList false = some "a\tb".toList)
  ∧ (normalize_input noLk "a\\nb".toList true = some "a\\nb".toList
      ∧ normalize_input noLk "a\\nb".toList false = some "a\nb".toList)
  ∧ (normalize_input noLk "a\\rb".toList true = some "a\\rb".toList
      ∧ normalize_input noLk "a\\rb".toList false = some "a\rb".toList) :=
  c6_normalize_ctrl_escapes noLk ['a'] ['b'] (by decide) (by decide) (by decide) (by decide)

theorem getKey_setKey {α : Type} [DecidableEq α] {β : Type} :
    ∀ (d : List (α × β)) (k : α) (v : β), getKey (setKey d k v) k = some v := by
  intro d
  induction d with
  | nil => intro k v; simp [setKey, getKey]
  | cons p rest ih =>
    intro k v
    by_cases h : p.1 = k
    · simp [setKey, getKey, h]
    · simp only [setKey]
      rw [if_neg h]
      simp only [getKey]
      rw [if_neg h]
      exact ih k v

theorem take_append_take {α : Type} (a b : List α) (n : Nat) :
    (a ++ b.take n).take n = (a ++ b).take n := by
  rw [List.take_append_eq_append_take, List.take_append_eq_append_take, List.take_take]
  congr 1
  exact congrArg b.take (Nat.min_eq_left (Nat.sub_le n a.length))

theorem update_history_jarr (key v : List Char) (cur : List (List Char))
    (hv : pyStrip v = v) (hne : v ≠ []) :
    update_history [(key, JVal.jarr cur)] key v
      = [(key, JVal.jarr ((v :: cur.erase v).take 10))] := by
  simp [update_history, storedHist, getKey, setKey, hv, hne]

theorem update_history_empty_store (key v : List Char)
    (hv : pyStrip v = v) (hne : v ≠ []) :
    update_history [] key v = [(key, JVal.jarr [v])] := by
  simp [update_history, storedHist, getKey, setKey, hv, hne]

theorem hist_foldl_gen :
    ∀ (vs : List (List Char)) (key : List Char) (cur : List (List Char)),
      cur.length ≤ 10 →
      (∀ v ∈ vs, pyStrip v = v ∧ v ≠ []) → vs.Nodup → (∀ v ∈ vs, v ∉ cur) →
      vs.foldl (fun d v => update_history d key v) [(key, JVal.jarr cur)]
        = [(key, JVal.jarr ((vs.reverse ++ cur).take 10))] := by
  intro vs
  induction vs with
  | nil =>
    intro key cur hlen _ _ _
    simp [List.take_of_length_le hlen]
  | cons v rest ih =>
    intro key cur _ hall hnd hdis
    have hv := (hall v (List.mem_cons_self _ _)).1
    have hvne := (hall v (List.mem_cons_self _ _)).2
    have hvcur : v ∉ cur := hdis v (List.mem_cons_self _ _)
    simp only [List.foldl_cons]
    rw [update_history_jarr key v cur hv hvne, List.erase_of_not_mem hvcur]
    have hrest : ∀ u ∈ rest, pyStrip u = u ∧ u ≠ [] :=
      fun u hu => hall u (List.mem_cons_of_mem _ hu)
    have hndr : rest.Nodup := (List.nodup_cons.mp hnd).2
    have hvnr : v ∉ rest := (List.nodup_cons.mp hnd).1
    have hdis2 : ∀ u ∈ rest, u ∉ (v :: cur).take 10 := by
      intro u hu hmem
      have := List.mem_of_mem_take hmem
      rcases List.mem_cons.mp this with h1 | h1
      · exact hvnr (h1 ▸ hu)
      · exact hdis u (List.mem_cons_of_mem _ hu) h1
    have hlen2 : ((v :: cur).take 10).length ≤ 10 := by
      simp [List.length_take]
    rw [ih key ((v :: cur).take 10) hlen2 hrest hndr hdis2]
    rw [take_append_take, List.reverse_cons, List.append_assoc]
    rfl

/-- C9 counterexample: with a hand-edited store holding an 11-entry history,
`update_history` invoked with a blank value is **not** a no-op — it truncates
the stored list to 10 entries. -/
theorem c9_counterexample :
    update_history [("_find_what_history".toList, JVal.jarr hist11)]
        "_find_what_history".toList " ".toList
      = [("_find_what_history".toList, JVal.jarr (hist11.take 10))]
    ∧ [("_find_what_history".toList, JVal.jarr (hist11.take 10))]
      ≠ [("_find_what_history".toList, JVal.jarr hist11)] := by
  constructor
  · decide
  · decide

/-- C9 (amended): `recordHistory` trims the value; a non-empty trimmed value
is removed if already present, inserted at the front, and the stored list is
truncated to 10 — so inserting distinct values yields the most recent ten,
most-recent-first, and re-inserting an existing value moves it to the front
without growing the list; a blank value inserts nothing but still rewrites
the stored entry (coercing a non-list to `[]`, creating an absent key, and
truncating to 10 entries). -/
theorem c9_update_history_amended :
    (∀ (key : List Char) (vs : List (List Char)), vs ≠ [] →
        (∀ v ∈ vs, pyStrip v = v ∧ v ≠ []) → vs.Nodup →
        vs.foldl (fun d v => update_history d key v) []
          = [(key, JVal.jarr (vs.reverse.take 10))])
    ∧ (∀ (data : List (List Char × JVal)) (key : List Char) (xs : List (List Char))
          (v : List Char),
        getKey data key = some (JVal.jarr xs) → pyStrip v = v → v ≠ [] → v ∈ xs →
        getKey (update_history data key v) key
            = some (JVal.jarr ((v :: xs.erase v).take 10))
          ∧ ((v :: xs.erase v).take 10).length = min xs.length 10)
    ∧ (∀ (data : List (List Char × JVal)) (key v : List Char), pyStrip v = [] →
        update_history data key v
          = setKey data key (JVal.jarr ((storedHist data key).take 10))) := by
  refine ⟨?_, ?_, ?_⟩
  · intro key vs hvs hall hnd
    cases vs with
    | nil => exact absurd rfl hvs
    | cons v rest =>
      have hv := (hall v (List.mem_cons_self _ _)).1
      have hvne := (hall v (List.mem_cons_self _ _)).2
      simp only [List.foldl_cons]
      rw [update_history_empty_store key v hv hvne]
      have hrest : ∀ u ∈ rest, pyStrip u = u ∧ u ≠ [] :=
        fun u hu => hall u (List.mem_cons_of_mem _ hu)
      have hndr : rest.Nodup := (List.nodup_cons.mp hnd).2
      have hvnr : v ∉ rest := (List.nodup_cons.mp hnd).1
      have hdis : ∀ u ∈ rest, u ∉ [v] := by
        intro u hu hmem
        rcases List.mem_singleton.mp hmem with h1
        exact hvnr (h1 ▸ hu)
      rw [hist_foldl_gen rest key [v] (by simp) hrest hndr hdis, List.reverse_cons]
  · intro data key xs v hget hv hne hmem
    constructor
    · simp only [update_history, storedHist, hget, hv]
      rw [if_neg hne]
      exact getKey_setKey data key _
    · have h1 : xs.length ≥ 1 := List.length_pos.mpr (List.ne_nil_of_mem hmem)
      have h2 := List.length_erase_of_mem hmem
      simp only [List.length_take, List.length_cons, h2]
      omega
  · intro data key v hv
    simp [update_history, hv]

/-- C9 witness: eleven distinct inserts keep the ten most recent,
most-recent-first; re-inserting `"b"` into `["a","b","c"]` moves it to the
front without growing the list; a blank value still rewrites the entry. -/
theorem c9_update_history_witness :
    (hist11.foldl (fun d v => update_history d "_find_what_history".toList v) []
        = [("_find_what_history".toList, JVal.jarr (hist11.reverse.take 10))])
    ∧ (getKey (update_history [("_k".toList, JVal.jarr [['a'], ['b'], ['c']])]
          "_k".toList ['b']) "_k".toList
        = some (JVal.jarr (((['b'] : List Char) :: [['a'], ['c']]).take 10))
      ∧ (((['b'] : List Char) :: ([['a'], ['b'], ['c']] : List (List Char)).erase ['b']).take 10).length
          = min ([['a'], ['b'], ['c']] : List (List Char)).length 10)
    ∧ update_history [] "_k".toList " ".toList
        = setKey [] "_k".toList (JVal.jarr ((storedHist [] "_k".toList).take 10)) := by
  refine ⟨?_, ?_, ?_⟩
  · exact c9_update_history_amended.1 "_find_what_history".toList hist11
      (by decide) (by decide) (by decide)
  · have h := c9_update_history_amended.2.1 [("_k".toList, JVal.jarr [['a'], ['b'], ['c']])]
      "_k".toList [['a'], ['b'], ['c']] ['b'] (by decide) (by decide) (by decide) (by decide)
    exact ⟨h.1.trans (by decide), h.2⟩
  · exact c9_update_history_amended.2.2 [] "_k".toList " ".toList (by decide)

/-- C10: before the active match is sought, the stored cursor offset is
clamped to the cached text's length (`onChangeGend`), so the match
re-derivation and the splice stay inside the text: every `finditer` span is
within bounds, an oversized offset is clamped, `on_change` with an oversized
offset still replaces the match ending exactly at end-of-text, and
`on_change_find`'s replace phase seeks the match at the clamped offset. -/
theorem c10_change_offset_clamped :
    (∀ (rg : PyRegex) (txt : List Char) (pr : Nat × Nat),
        pr ∈ reFinditer rg txt → pr.1 ≤ pr.2 ∧ pr.2 ≤ txt.length)
  ∧ (∀ (txt : List Char) (ci : Int), (txt.length : Int) < ci →
        onChangeGend txt ci = (txt.length : Int))
  ∧ (∀ (lk : List Char → Option Char) (fw cht : List Char) (co : Option PyRegex)
        (mode : Option (List Char)) (pat rep : List Char) (rg : PyRegex)
        (frames : List Nat) (si : Nat) (ci : Int) (fc : Nat)
        (cache : List (Nat × List Char)) (frame : Nat) (txt : List Char)
        (gst gen : Nat) (exp : List Char) (w : World),
        normalize_input lk fw true = some pat →
        normalize_input lk cht false = some rep →
        pat ≠ [] → frames ≠ [] → si < frames.length →
        frames.getD si 0 = frame → getKey cache frame = some txt → txt ≠ [] →
        (txt.length : Int) < ci →
        locateMatch rg txt (txt.length : Int) = some (gst, gen) →
        pyExpand rep ((txt.drop gst).take (gen - gst)) = some exp →
        on_change lk fw cht co
            ⟨mode, some pat, some rg, frames, si, ci, fc, cache⟩ w
          = (⟨mode, some pat, some rg, frames, si, (gst : Int) + exp.length, fc,
              setKey cache frame (splice txt gst gen exp)⟩,
             { w with
               doc := setKey w.doc frame
                        (splice ((getKey w.doc frame).getD []) gst (gst + (gen - gst)) exp) },
             ChangeResult.replaced frame gst exp))
  ∧ (∀ (lk : List Char → Option Char) (fw cht : List Char) (co : Option PyRegex)
        (mode : Option (List Char)) (pat rep : List Char) (rg : PyRegex)
        (frames : List Nat) (si : Nat) (ci : Int) (fc : Nat)
        (cache : List (Nat × List Char)) (frame : Nat) (txt : List Char) (w : World),
        normalize_input lk fw true = some pat →
        normalize_input lk cht false = some rep →
        pat ≠ [] → frames ≠ [] → si < frames.length →
        frames.getD si 0 = frame → getKey cache frame = some txt → txt ≠ [] →
        (txt.length : Int) < ci →
        locateMatch rg txt (txt.length : Int) = none →
        on_change_find lk fw cht co
            ⟨mode, some pat, some rg, frames, si, ci, fc, cache⟩ w
          = (⟨mode, some pat, some rg, frames, si, ci, fc, cache⟩, w,
             ChangeFindResult.noMatchAtEnd)) := by
  refine ⟨fun rg txt pr h => reFinditer_bounds rg txt pr h, ?_, ?_, ?_⟩
  · intro txt ci hci
    simp only [onChangeGend, if_pos hci]
  · intro lk fw cht co mode pat rep rg frames si ci fc cache frame txt gst gen exp w
      hfw hrep hpat hfr hsi hframe hcache htxt hci hloc hexp
    have hci0 : ¬((ci : Int) ≤ 0) := by
      have : (0 : Int) ≤ (txt.length : Int) := Int.ofNat_nonneg txt.length
      omega
    have hg : onChangeGend txt ci = (txt.length : Int) := by
      simp only [onChangeGend, if_pos hci]
    simp only [on_change, hfw, hrep]
    rw [if_neg hpat]
    simp only [Option.map_some']
    rw [if_neg (by simp)]
    simp only [Option.map_some']
    rw [if_neg hfr, if_neg (by omega)]
    simp only [hframe, hcache]
    rw [if_neg htxt, if_neg hci0]
    simp only [hg, hloc, hexp]
  · intro lk fw cht co mode pat rep rg frames si ci fc cache frame txt w
      hfw hrep hpat hfr hsi hframe hcache htxt hci hloc
    have hci0 : ¬((ci : Int) ≤ 0) := by
      have : (0 : Int) ≤ (txt.length : Int) := Int.ofNat_nonneg txt.length
      omega
    have hg : onChangeGend txt ci = (txt.length : Int) := by
      simp only [onChangeGend, if_pos hci]
    simp only [on_change_find, hfw, hrep]
    rw [if_neg hpat]
    simp only [Option.map_some']
    rw [if_neg (by simp)]
    simp only [Option.map_some']
    rw [if_neg hfr, if_neg (by omega)]
    simp only [hframe, hcache]
    rw [if_neg htxt, if_neg hci0]
    simp only [hg, hloc]

/-- C10 witness: with text `"cat"` (length 3) and a stored offset of 5, the
offset is clamped to 3; `on_change` still replaces the match `(0,3)` that
ends exactly at end-of-text, and `on_change_find` with a pattern having no
match ending at 3 reports no active match, state untouched. -/
theorem c10_change_offset_clamped_witness :
    on_change noLk "cat".toList "dog".toList none
        ⟨some "Document".toList, some "cat".toList, some catRG, [1], 0, 5, 1,
          [(1, "cat".toList)]⟩ ⟨[(1, "cat".toList)], []⟩
      = (⟨some "Document".toList, some "cat".toList, some catRG, [1], 0, 3, 1,
          [(1, "dog".toList)]⟩, ⟨[(1, "dog".toList)], []⟩,
         ChangeResult.replaced 1 0 "dog".toList)
  ∧ on_change_find noLk "ab".toList "z".toList none
        ⟨some "Document".toList, some "ab".toList, some abRG, [1], 0, 5, 1,
          [(1, "cat".toList)]⟩ ⟨[(1, "cat".toList)], []⟩
      = (⟨some "Document".toList, some "ab".toList, some abRG, [1], 0, 5, 1,
          [(1, "cat".toList)]⟩, ⟨[(1, "cat".toList)], []⟩,
         ChangeFindResult.noMatchAtEnd) := by
  constructor
  · exact (c10_change_offset_clamped.2.2.1 noLk "cat".toList "dog".toList none
      (some "Document".toList) "cat".toList "dog".toList catRG [1] 0 5 1
      [(1, "cat".toList)] 1 "cat".toList 0 3 "dog".toList ⟨[(1, "cat".toList)], []⟩
      (by decide) (by decide) (by decide) (by decide) (by decide) (by decide)
      (by decide) (by decide) (by decide) (by decide) (by decide)).trans (by decide)
  · exact (c10_change_offset_clamped.2.2.2 noLk "ab".toList "z".toList none
      (some "Document".toList) "ab".toList "z".toList abRG [1] 0 5 1
      [(1, "cat".toList)] 1 "cat".toList ⟨[(1, "cat".toList)], []⟩
      (by decide) (by decide) (by decide) (by decide) (by decide) (by decide)
      (by decide) (by decide) (by decide) (by decide)).trans (by decide)

/-- C1: `on_change` re-locates the active match by iterating the compiled
pattern's matches over the cached text and selecting the first match, left to
right, whose end offset equals the stored `char_index` (`locateMatch`); it
splices the capture-group expansion of the replacement into the cached text
at the match's span and sets `char_index` to match start plus the expansion's
length.  Stated for the state a first successful advance leaves behind (the
regex slot is `none`, so the pattern is recompiled — `co` is the successful
`re.compile` outcome). -/
theorem c1_replace_current (lk : List Char → Option Char) (fw cht : List Char)
    (rg : PyRegex) (mode pat0 : Option (List Char)) (pat rep : List Char)
    (frames : List Nat) (si : Nat) (ci : Int) (fc : Nat)
    (cache : List (Nat × List Char)) (frame : Nat) (txt : List Char)
    (gst gen : Nat) (exp : List Char) (w : World)
    (hfw : normalize_input lk fw true = some pat)
    (hrep : normalize_input lk cht false = some rep)
    (hpat : pat ≠ [])
    (hfr : frames ≠ [])
    (hsi : si < frames.length)
    (hframe : frames.getD si 0 = frame)
    (hcache : getKey cache frame = some txt)
    (htxt : txt ≠ [])
    (hci : 0 < ci)
    (hle : ci ≤ (txt.length : Int))
    (hloc : locateMatch rg txt ci = some (gst, gen))
    (hexp : pyExpand rep ((txt.drop gst).take (gen - gst)) = some exp) :
    on_change lk fw cht (some rg)
        ⟨mode, pat0, none, frames, si, ci, fc, cache⟩ w
      = (⟨mode, some pat, some rg, frames, si, (gst : Int) + exp.length, fc,
          setKey cache frame (splice txt gst gen exp)⟩,
         { w with
           doc := setKey w.doc frame
                    (splice ((getKey w.doc frame).getD []) gst (gst + (gen - gst)) exp) },
         ChangeResult.replaced frame gst exp) := by
  have hci0 : ¬((ci : Int) ≤ 0) := by omega
  have hg : onChangeGend txt ci = ci := by
    simp only [onChangeGend, if_neg (not_lt.mpr hle)]
  simp only [on_change, hfw, hrep]
  rw [if_neg hpat]
  simp only [true_or, if_true, Option.map_some']
  rw [if_neg hfr, if_neg (by omega)]
  simp only [hframe, hcache]
  rw [if_neg htxt, if_neg hci0]
  simp only [hg, hloc, hexp]

/-- C1 witness: after Find next matched `(0,3)` in `"cat dog"` with pattern
`cat`, Change with replacement `"dog"` yields the text `"dog dog"`, the
cursor offset 3, and the first match ending at offset 3 was the one spliced. -/
theorem c1_replace_current_witness :
    c1r1.2.2 = FindResult.found 1 0 3
  ∧ on_change noLk "cat".toList "dog".toList (some catRG) c1r1.1 c1r1.2.1
      = ({ mode := some "Document".toList, pattern := some "cat".toList,
           regex := some catRG, frames := [1], storyIndex := 0, charIndex := 3,
           foundCount := 1, cache := [(1, "dog dog".toList)] },
         { doc := [(1, "dog dog".toList)], store := c1r1.2.1.store },
         ChangeResult.replaced 1 0 "dog".toList) := by
  constructor
  · decide
  · have hs : c1r1.1 = ⟨some "Document".toList, some "cat".toList, none, [1], 0, 3, 1,
        [(1, "cat dog".toList)]⟩ := by decide
    rw [hs]
    exact (c1_replace_current noLk "cat".toList "dog".toList catRG
      (some "Document".toList) (some "cat".toList) "cat".toList "dog".toList
      [1] 0 3 1 [(1, "cat dog".toList)] 1 "cat dog".toList 0 3 "dog".toList c1r1.2.1
      (by decide) (by decide) (by decide) (by decide) (by decide) (by decide)
      (by decide) (by decide) (by decide) (by decide) (by decide) (by decide)).trans
      (by decide)

/-- C5 counterexample: invoking Change on a freshly reset session (no prior
advance) with a compilable pattern fails with the no-active-match warning,
but it does **not** leave all session state untouched — the compiled regex
and the pattern text are stored into the session before the check fires. -/
theorem c5_counterexample :
    on_change noLk "cat".toList "x".toList (some catRG) initState ⟨[], []⟩
      = ({ initState with pattern := some "cat".toList, regex := some catRG },
         ⟨[], []⟩, ChangeResult.noFrames)
  ∧ { initState with pattern := some "cat".toList, regex := some catRG } ≠ initState := by
  constructor
  · decide
  · decide

/-- C5 (amended): when Change is invoked with no active match — empty
container list, story index out of range, non-positive `char_index`, or no
match of the pattern ending at the (clamped) stored offset — it fails with a
warning, and provided the pattern is already the compiled one and the
container's text already cached, it leaves the session state, the text cache
and the container text unchanged.  (Otherwise it may still refresh the
cached regex/pattern and lazily populate the text cache, as the
counterexample shows.) -/
theorem c5_no_active_match_amended :
    (∀ (lk : List Char → Option Char) (fw cht : List Char) (co : Option PyRegex)
        (mode : Option (List Char)) (pat rep : List Char) (rg : PyRegex)
        (si : Nat) (ci : Int) (fc : Nat) (cache : List (Nat × List Char)) (w : World),
        normalize_input lk fw true = some pat →
        normalize_input lk cht false = some rep → pat ≠ [] →
        on_change lk fw cht co ⟨mode, some pat, some rg, [], si, ci, fc, cache⟩ w
          = (⟨mode, some pat, some rg, [], si, ci, fc, cache⟩, w, ChangeResult.noFrames))
  ∧ (∀ (lk : List Char → Option Char) (fw cht : List Char) (co : Option PyRegex)
        (mode : Option (List Char)) (pat rep : List Char) (rg : PyRegex)
        (frames : List Nat) (si : Nat) (ci : Int) (fc : Nat)
        (cache : List (Nat × List Char)) (w : World),
        normalize_input lk fw true = some pat →
        normalize_input lk cht false = some rep → pat ≠ [] →
        frames ≠ [] → frames.length ≤ si →
        on_change lk fw cht co ⟨mode, some pat, some rg, frames, si, ci, fc, cache⟩ w
          = (⟨mode, some pat, some rg, frames, si, ci, fc, cache⟩, w, ChangeResult.badIndex))
  ∧ (∀ (lk : List Char → Option Char) (fw cht : List Char) (co : Option PyRegex)
        (mode : Option (List Char)) (pat rep : List Char) (rg : PyRegex)
        (frames : List Nat) (si : Nat) (ci : Int) (fc : Nat)
        (cache : List (Nat × List Char)) (frame : Nat) (txt : List Char) (w : World),
        normalize_input lk fw true = some pat →
        normalize_input lk cht false = some rep → pat ≠ [] →
        frames ≠ [] → si < frames.length → frames.getD si 0 = frame →
        getKey cache frame = some txt → txt ≠ [] → ci ≤ 0 →
        on_change lk fw cht co ⟨mode, some pat, some rg, frames, si, ci, fc, cache⟩ w
          = (⟨mode, some pat, some rg, frames, si, ci, fc, cache⟩, w, ChangeResult.noActive))
  ∧ (∀ (lk : List Char → Option Char) (fw cht : List Char) (co : Option PyRegex)
        (mode : Option (List Char)) (pat rep : List Char) (rg : PyRegex)
        (frames : List Nat) (si : Nat) (ci : Int) (fc : Nat)
        (cache : List (Nat × List Char)) (frame : Nat) (txt : List Char) (w : World),
        normalize_input lk fw true = some pat →
        normalize_input lk cht false = some rep → pat ≠ [] →
        frames ≠ [] → si < frames.length → frames.getD si 0 = frame →
        getKey cache frame = some txt → txt ≠ [] → 0 < ci →
        locateMatch rg txt (onChangeGend txt ci) = none →
        on_change lk fw cht co ⟨mode, some pat, some rg, frames, si, ci, fc, cache⟩ w
          = (⟨mode, some pat, some rg, frames, si, ci, fc, cache⟩, w,
             ChangeResult.noMatchAtEnd)) := by
  refine ⟨?_, ?_, ?_, ?_⟩
  · intro lk fw cht co mode pat rep rg si ci fc cache w hfw hrep hpat
    simp only [on_change, hfw, hrep]
    rw [if_neg hpat]
    rw [if_neg (by simp)]
    simp only [Option.map_some']
    simp
  · intro lk fw cht co mode pat rep rg frames si ci fc cache w hfw hrep hpat hfr hsi
    simp only [on_change, hfw, hrep]
    rw [if_neg hpat]
    rw [if_neg (by simp)]
    simp only [Option.map_some']
    rw [if_neg hfr, if_pos hsi]
  · intro lk fw cht co mode pat rep rg frames si ci fc cache frame txt w
      hfw hrep hpat hfr hsi hframe hcache htxt hci
    simp only [on_change, hfw, hrep]
    rw [if_neg hpat]
    rw [if_neg (by simp)]
    simp only [Option.map_some']
    rw [if_neg hfr, if_neg (by omega)]
    simp only [hframe, hcache]
    rw [if_neg htxt, if_pos hci]
  · intro lk fw cht co mode pat rep rg frames si ci fc cache frame txt w
      hfw hrep hpat hfr hsi hframe hcache htxt hci hloc
    simp only [on_change, hfw, hrep]
    rw [if_neg hpat]
    rw [if_neg (by simp)]
    simp only [Option.map_some']
    rw [if_neg hfr, if_neg (by omega)]
    simp only [hframe, hcache]
    rw [if_neg htxt, if_neg (by omega)]
    simp only [hloc]

/-- C5 witness: each of the four no-active-match conditions exhibited on a
concrete session over the story `"cat dog"`. -/
theorem c5_no_active_match_witness :
    on_change noLk "cat".toList "x".toList none
        ⟨some "Document".toList, some "cat".toList, some catRG, [], 0, 3, 1, []⟩ ⟨[], []⟩
      = (⟨some "Document".toList, some "cat".toList, some catRG, [], 0, 3, 1, []⟩,
         ⟨[], []⟩, ChangeResult.noFrames)
  ∧ on_change noLk "cat".toList "x".toList none
        ⟨some "Document".toList, some "cat".toList, some catRG, [1], 2, 3, 1,
          [(1, "cat dog".toList)]⟩ ⟨[], []⟩
      = (⟨some "Document".toList, some "cat".toList, some catRG, [1], 2, 3, 1,
          [(1, "cat dog".toList)]⟩, ⟨[], []⟩, ChangeResult.badIndex)
  ∧ on_change noLk "cat".toList "x".toList none
        ⟨some "Document".toList, some "cat".toList, some catRG, [1], 0, 0, 1,
          [(1, "cat dog".toList)]⟩ ⟨[], []⟩
      = (⟨some "Document".toList, some "cat".toList, some catRG, [1], 0, 0, 1,
          [(1, "cat dog".toList)]⟩, ⟨[], []⟩, ChangeResult.noActive)
  ∧ on_change noLk "cat".toList "x".toList none
        ⟨some "Document".toList, some "cat".toList, some catRG, [1], 0, 2, 1,
          [(1, "cat dog".toList)]⟩ ⟨[], []⟩
      = (⟨some "Document".toList, some "cat".toList, some catRG, [1], 0, 2, 1,
          [(1, "cat dog".toList)]⟩, ⟨[], []⟩, ChangeResult.noMatchAtEnd) := by
  refine ⟨?_, ?_, ?_, ?_⟩
  · exact c5_no_active_match_amended.1 noLk "cat".toList "x".toList none
      (some "Document".toList) "cat".toList "x".toList catRG 0 3 1 [] ⟨[], []⟩
      (by decide) (by decide) (by decide)
  · exact c5_no_active_match_amended.2.1 noLk "cat".toList "x".toList none
      (some "Document".toList) "cat".toList "x".toList catRG [1] 2 3 1
      [(1, "cat dog".toList)] ⟨[], []⟩
      (by decide) (by decide) (by decide) (by decide) (by decide)
  · exact c5_no_active_match_amended.2.2.1 noLk "cat".toList "x".toList none
      (some "Document".toList) "cat".toList "x".toList catRG [1] 0 0 1
      [(1, "cat dog".toList)] 1 "cat dog".toList ⟨[], []⟩
      (by decide) (by decide) (by decide) (by decide) (by decide) (by decide)
      (by decide) (by decide) (by decide)
  · exact c5_no_active_match_amended.2.2.2 noLk "cat".toList "x".toList none
      (some "Document".toList) "cat".toList "x".toList catRG [1] 0 2 1
      [(1, "cat dog".toList)] 1 "cat dog".toList ⟨[], []⟩
      (by decide) (by decide) (by decide) (by decide) (by decide) (by decide)
      (by decide) (by decide) (by decide) (by decide)

/-- C4 counterexample: a pattern that fails to compile (e.g. `"("`) makes
Change abort with a warning, but the session is **not** reset to Idle — it is
left exactly as it was, here a live mid-session state. -/
theorem c4_counterexample :
    on_change noLk "(".toList "x".toList none activeS ⟨[(1, "cat dog".toList)], []⟩
      = (activeS, ⟨[(1, "cat dog".toList)], []⟩, ChangeResult.compileError)
  ∧ activeS ≠ initState := by
  constructor
  · decide
  · decide

/-- C4 (amended): a pattern that fails to compile aborts the operation and
surfaces a warning in all four operations, but only Find next resets the
session to Idle; Change, Change all and Change/Find return with the session
exactly as it was. -/
theorem c4_compile_failure_amended :
    (∀ (lk : List Char → Option Char) (fw cht combo : List Char)
        (docRoots : List Nat) (storyRoot : Option Nat)
        (s : SearchState) (w : World) (pat : List Char),
        normalize_input lk fw true = some pat → pat ≠ [] →
        (s.regex = none ∨ s.pattern ≠ some pat) →
        on_find_next lk fw cht combo docRoots storyRoot none s w
          = (initState, w, FindResult.compileError))
  ∧ (∀ (lk : List Char → Option Char) (fw cht : List Char)
        (s : SearchState) (w : World) (pat rep : List Char),
        normalize_input lk fw true = some pat →
        normalize_input lk cht false = some rep → pat ≠ [] →
        (s.regex = none ∨ s.pattern ≠ some pat) →
        on_change lk fw cht none s w = (s, w, ChangeResult.compileError))
  ∧ (∀ (lk : List Char → Option Char) (fw cht combo : List Char)
        (docRoots : List Nat) (storyRoot : Option Nat)
        (s : SearchState) (w : World) (pat rep : List Char),
        normalize_input lk fw true = some pat →
        normalize_input lk cht false = some rep → pat ≠ [] →
        changeAllFrames s combo docRoots storyRoot ≠ [] →
        on_change_all lk fw cht combo docRoots storyRoot none s w
          = (s, w, ChangeAllResult.compileError))
  ∧ (∀ (lk : List Char → Option Char) (fw cht : List Char)
        (s : SearchState) (w : World) (pat rep : List Char),
        normalize_input lk fw true = some pat →
        normalize_input lk cht false = some rep → pat ≠ [] →
        (s.regex = none ∨ s.pattern ≠ some pat) →
        on_change_find lk fw cht none s w = (s, w, ChangeFindResult.compileError)) := by
  refine ⟨?_, ?_, ?_, ?_⟩
  · intro lk fw cht combo docRoots storyRoot s w pat hfw hpat hne
    simp only [on_find_next, hfw]
    rw [if_neg hpat, if_pos hne]
    simp
  · intro lk fw cht s w pat rep hfw hrep hpat hne
    simp only [on_change, hfw, hrep]
    rw [if_neg hpat, if_pos hne]
    simp
  · intro lk fw cht combo docRoots storyRoot s w pat rep hfw hrep hpat hframes
    simp only [on_change_all, hfw, hrep]
    rw [if_neg hpat, if_neg hframes]
  · intro lk fw cht s w pat rep hfw hrep hpat hne
    simp only [on_change_find, hfw, hrep]
    rw [if_neg hpat, if_pos hne]
    simp

/-- C4 witness: the four operations invoked on a live session with the
uncompilable pattern `"("`: Find next resets to Idle, the other three leave
the session untouched. -/
theorem c4_compile_failure_witness :
    on_find_next noLk "(".toList "x".toList "Document".toList [1] none none
        activeS ⟨[(1, "cat dog".toList)], []⟩
      = (initState, ⟨[(1, "cat dog".toList)], []⟩, FindResult.compileError)
  ∧ on_change noLk "(".toList "x".toList none activeS ⟨[(1, "cat dog".toList)], []⟩
      = (activeS, ⟨[(1, "cat dog".toList)], []⟩, ChangeResult.compileError)
  ∧ on_change_all noLk "(".toList "x".toList "Document".toList [1] none none
        activeS ⟨[(1, "cat dog".toList)], []⟩
      = (activeS, ⟨[(1, "cat dog".toList)], []⟩, ChangeAllResult.compileError)
  ∧ on_change_find noLk "(".toList "x".toList none activeS ⟨[(1, "cat dog".toList)], []⟩
      = (activeS, ⟨[(1, "cat dog".toList)], []⟩, ChangeFindResult.compileError) := by
  refine ⟨?_, ?_, ?_, ?_⟩
  · exact c4_compile_failure_amended.1 noLk "(".toList "x".toList "Document".toList
      [1] none activeS ⟨[(1, "cat dog".toList)], []⟩ "(".toList
      (by decide) (by decide) (by decide)
  · exact c4_compile_failure_amended.2.1 noLk "(".toList "x".toList
      activeS ⟨[(1, "cat dog".toList)], []⟩ "(".toList "x".toList
      (by decide) (by decide) (by decide) (by decide)
  · exact c4_compile_failure_amended.2.2.1 noLk "(".toList "x".toList
      "Document".toList [1] none activeS ⟨[(1, "cat dog".toList)], []⟩
      "(".toList "x".toList (by decide) (by decide) (by decide) (by decide)
  · exact c4_compile_failure_amended.2.2.2 noLk "(".toList "x".toList
      activeS ⟨[(1, "cat dog".toList)], []⟩ "(".toList "x".toList
      (by decide) (by decide) (by decide) (by decide)

/-- C2: over the single story `"ababab"` with pattern `ab`, three successive
Find-next calls report the matches `(0,2)`, `(2,4)`, `(4,6)` — each setting
`char_index` to the match end and incrementing the match counter while the
story index stays put — and the fourth call reports 3 matches found and
resets the session to Idle. -/
theorem c2_cursor_ordering :
    (c2r1.2.2 = FindResult.found 1 0 2 ∧ c2r1.1.charIndex = 2
      ∧ c2r1.1.foundCount = 1 ∧ c2r1.1.storyIndex = 0)
  ∧ (c2r2.2.2 = FindResult.found 1 2 4 ∧ c2r2.1.charIndex = 4
      ∧ c2r2.1.foundCount = 2 ∧ c2r2.1.storyIndex = 0)
  ∧ (c2r3.2.2 = FindResult.found 1 4 6 ∧ c2r3.1.charIndex = 6
      ∧ c2r3.1.foundCount = 3 ∧ c2r3.1.storyIndex = 0)
  ∧ c2r4.2.2 = FindResult.exhausted 3
  ∧ c2r4.1 = initState := by
  refine ⟨⟨?_, ?_, ?_, ?_⟩, ⟨?_, ?_, ?_, ?_⟩, ⟨?_, ?_, ?_, ?_⟩, ?_, ?_⟩ <;> decide

/-- C3 counterexample: Change all invoked on a live session with a pattern
that fails to compile (e.g. `"("`) aborts with a warning and does **not**
reset the session to Idle — so the reset does not happen "regardless of
outcome". -/
theorem c3_counterexample :
    on_change_all noLk "(".toList "dog".toList "Document".toList [1] none none
        activeS ⟨[(1, "cat cat cat".toList)], []⟩
      = (activeS, ⟨[(1, "cat cat cat".toList)], []⟩, ChangeAllResult.compileError)
  ∧ activeS ≠ initState := by
  constructor
  · decide
  · decide

/-- C3 (amended): Change all performs one global left-to-right
non-overlapping substitution pass per container and returns the total count
(`"cat cat cat"` → 3 and `"dog dog dog"`), and it resets the session to Idle
whenever the substitution pass runs to completion; aborts before or during
the pass (empty pattern, no containers, compile failure, expansion failure)
leave the session as it was. -/
theorem c3_change_all_amended :
    on_change_all noLk "cat".toList "dog".toList "Document".toList [1] none
        (some catRG) initState ⟨[(1, "cat cat cat".toList)], []⟩
      = (initState, ⟨[(1, "dog dog dog".toList)], []⟩, ChangeAllResult.done 3)
  ∧ (∀ (lk : List Char → Option Char) (fw cht combo : List Char)
        (docRoots : List Nat) (storyRoot : Option Nat) (co : Option PyRegex)
        (s : SearchState) (w : World) (r : SearchState × World × ChangeAllResult)
        (n : Nat),
        on_change_all lk fw cht combo docRoots storyRoot co s w = r →
        r.2.2 = ChangeAllResult.done n → r.1 = initState) := by
  constructor
  · decide
  · intro lk fw cht combo docRoots storyRoot co s w r n he h
    unfold on_change_all at he
    repeat' split at he
    all_goals (subst he; simp_all)

/-- C3 witness: the reset-on-completion clause applied to the concrete
`"cat cat cat"` pass. -/
theorem c3_change_all_witness :
    (on_change_all noLk "cat".toList "dog".toList "Document".toList [1] none
        (some catRG) initState ⟨[(1, "cat cat cat".toList)], []⟩).1 = initState :=
  c3_change_all_amended.2 noLk "cat".toList "dog".toList "Document".toList [1] none
    (some catRG) initState ⟨[(1, "cat cat cat".toList)], []⟩ _ 3 rfl (by decide)

/-- C7 counterexample: with a session whose scope is Story and a requested
scope of Document covering two stories, Change all ignores the requested
scope: it keeps the session's Story container list, processes only story 1
(count 1, story 2 untouched), while the claim's resolution rule —
`claimFramesResolution`, written from the claim's words — would re-derive
both Document stories. -/
theorem c7_counterexample :
    changeAllFrames c7s "Document".toList [1, 2] (some 1) = [1]
  ∧ claimFramesResolution c7s "Document".toList [1, 2] (some 1) = [1, 2]
  ∧ ([1] : List Nat) ≠ [1, 2]
  ∧ c7s.mode ≠ some "Document".toList
  ∧ c7run.2.2 = ChangeAllResult.done 1
  ∧ getKey c7run.2.1.doc 1 = some "dog".toList
  ∧ getKey c7run.2.1.doc 2 = some "cat".toList := by
  refine ⟨?_, ?_, ?_, ?_, ?_, ?_, ?_⟩ <;> decide

/-- C7 (amended): Change all resolves its effective scope as the session's
stored scope when one is set (the requested scope applies only when the
session has none, with Document as default); it reuses the session's
container list exactly when the session's scope equals that effective scope
and the list is non-empty, and otherwise re-derives the list for the
effective scope from the text store. -/
theorem c7_frames_resolution_amended :
    (∀ (s : SearchState) (combo : List Char) (docRoots : List Nat)
        (storyRoot : Option Nat), s.mode = none →
        changeAllFrames s combo docRoots storyRoot
          = deriveFramesForMode (if combo = [] then "Document".toList else combo)
              docRoots storyRoot)
  ∧ (∀ (s : SearchState) (m combo : List Char) (docRoots : List Nat)
        (storyRoot : Option Nat), s.mode = some m → m ≠ [] → s.frames ≠ [] →
        changeAllFrames s combo docRoots storyRoot = s.frames)
  ∧ (∀ (s : SearchState) (m combo : List Char) (docRoots : List Nat)
        (storyRoot : Option Nat), s.mode = some m → m ≠ [] → s.frames = [] →
        changeAllFrames s combo docRoots storyRoot
          = deriveFramesForMode m docRoots storyRoot) := by
  refine ⟨?_, ?_, ?_⟩
  · intro s combo docRoots storyRoot hmode
    simp [changeAllFrames, changeAllEffectiveMode, hmode]
  · intro s m combo docRoots storyRoot hmode hm hfr
    simp [changeAllFrames, changeAllEffectiveMode, hmode, hm, hfr]
  · intro s m combo docRoots storyRoot hmode hm hfr
    simp [changeAllFrames, changeAllEffectiveMode, hmode, hm, hfr]

/-- C7 witness: the three resolution clauses at concrete sessions — no
session scope (derive for the requested scope), Story session with frames
(reuse them, requested Document ignored), Story session without frames
(re-derive for Story). -/
theorem c7_frames_resolution_witness :
    changeAllFrames initState "Story".toList [5] (some 7)
        = deriveFramesForMode "Story".toList [5] (some 7)
  ∧ changeAllFrames c7s "Document".toList [1, 2] (some 1) = c7s.frames
  ∧ changeAllFrames
        ⟨some "Story".toList, some "cat".toList, some catRG, [], 0, 3, 1, []⟩
        "Document".toList [1, 2] (some 1)
      = deriveFramesForMode "Story".toList [1, 2] (some 1) := by
  refine ⟨?_, ?_, ?_⟩
  · exact c7_frames_resolution_amended.1 initState "Story".toList [5] (some 7) (by decide)
  · exact c7_frames_resolution_amended.2.1 c7s "Story".toList "Document".toList [1, 2]
      (some 1) (by decide) (by decide) (by decide)
  · exact c7_frames_resolution_amended.2.2
      ⟨some "Story".toList, some "cat".toList, some catRG, [], 0, 3, 1, []⟩
      "Story".toList "Document".toList [1, 2] (some 1)
      (by decide) (by decide) (by decide)

/-- C8 counterexample: in the search loop of Change/Find there is no
zero-length guard.  With pattern `x*` over `"xx a"`, after replacing the
active match `(0,2)` by `"y"` the continuation search finds the zero-length
match `(1,1)` and **reports** it — selecting it, setting `char_index` to its
end and incrementing the match counter — instead of treating the position as
unsearchable and advancing to the next container as `advance()` does. -/
theorem c8_counterexample :
    c8run.2.2 = ChangeFindResult.found 1 1 1
  ∧ c8run.1.foundCount = 2
  ∧ c8run.1.storyIndex = 0
  ∧ c8run.1.charIndex = 1 := by
  refine ⟨?_, ?_, ?_, ?_⟩ <;> decide

/-- C8 (amended): after a successful replace, Change/Find continues the
search in the same container from the post-replace `char_index` without
re-deriving scope or containers (the embedding takes no container query at
all in this phase); unlike `advance()`, a zero-length match found in this
continuation is reported as a match — selected, counted, `char_index` set to
its end — rather than skipped. -/
theorem c8_change_find_amended :
    (c8run2.2.2 = ChangeFindResult.found 1 4 7
      ∧ c8run2.1.frames = [1]
      ∧ c8run2.1.storyIndex = 0
      ∧ c8run2.1.charIndex = 7
      ∧ c8run2.1.foundCount = 2
      ∧ getKey c8run2.1.cache 1 = some "dog cat".toList)
  ∧ (c8run.2.2 = ChangeFindResult.found 1 1 1
      ∧ getKey c8run.1.cache 1 = some "y a".toList
      ∧ c8run.1.foundCount = 2) := by
  refine ⟨⟨?_, ?_, ?_, ?_, ?_, ?_⟩, ?_, ?_, ?_⟩ <;> decide
